import Mathlib

/-!
# DoS-Attack-Blocker: load balancer, web servers and IP admission control

A shallow embedding of `src/src/request.cpp`, `src/src/webserver.cpp` and
`src/src/loadbalancer.cpp`.

Modelling conventions.

* C++ `int` is `Int`.  Signed overflow is undefined in C++, so the embedding
  describes runs in which no counter leaves the 32-bit range (no arithmetic
  here can overflow before about `2^31` calls or servers).
* `std::string` is `String`; `length()` is `String.length` and `substr(0, n)`
  keeps the first `n` characters.  Addresses are ASCII, so bytes and
  characters coincide.
* Owning raw pointers become values: `Request*` that may be null is
  `Option Request`; the queue and the server pool are lists in their C++ order.
  A write through a pointer (`req->assigned_time = t`) rewrites the value held
  by whoever owns the request.
* `std::map<std::string,int>` is an association list with at most one entry per
  key, `std::set<std::string>` a duplicate-free list.  Only `find`,
  `operator[]`, `insert` and `size` are used by the code, none of which
  observes the ordering.
* `rand()` reads a global stream of non-negative draws.  The stream is an
  explicit argument `g : RandStream`; every function that draws returns the
  stream advanced past its draws.  `srand` only selects which stream is used.
* Console output (`std::cout`, `printStatus`) changes no state and is dropped.
* Undefined behaviour (writing through a null `current_request`, `back()` on an
  empty vector) yields `none`.
-/

namespace DoSBlocker

/-! ## request.h / request.cpp -/

/-- The `Request` struct of `request.h`. -/
structure Request where
  ip_in : String
  ip_out : String
  process_time : Int
  arrival_time : Int
  assigned_time : Int
  processed : Bool
deriving DecidableEq, Repr

/-- Constructor `Request::Request(in, out, proc_time, arrival)`. -/
def Request.new (ip_in ip_out : String) (proc_time arrival : Int) : Request :=
  { ip_in := ip_in, ip_out := ip_out, process_time := proc_time,
    arrival_time := arrival, assigned_time := -1, processed := false }

/-! ## webserver.h / webserver.cpp -/

/-- The `WebServer` class: private members `busy`, `time_remaining`,
`current_request`. -/
structure WebServer where
  busy : Bool
  time_remaining : Int
  current_request : Option Request
deriving DecidableEq, Repr

namespace WebServer

/-- Constructor `WebServer::WebServer()`. -/
def new : WebServer :=
  { busy := false, time_remaining := 0, current_request := none }

/-- Method `WebServer::isBusy`. -/
def isBusy (s : WebServer) : Bool := s.busy

/-- Method `WebServer::assignRequest(req, current_time)`.  The second component
is the request object `*req` as it stands after the call (the call writes
`req->assigned_time` only when the server takes the request). -/
def assignRequest (s : WebServer) (req : Request) (current_time : Int) :
    WebServer × Request :=
  if !s.busy then
    let req1 : Request := { req with assigned_time := current_time }
    ({ busy := true, time_remaining := req.process_time, current_request := some req1 }, req1)
  else
    (s, req)

/-- Method `WebServer::processCycle`.  `current_request->processed = true` with a
null `current_request` is undefined: `none`. -/
def processCycle (s : WebServer) : Option WebServer :=
  if s.busy && decide (s.time_remaining > 0) then
    let tr := s.time_remaining - 1
    if tr = 0 then
      match s.current_request with
      | none => none
      | some r =>
        some { busy := false, time_remaining := tr,
               current_request := some { r with processed := true } }
    else
      some { s with time_remaining := tr }
  else
    some s

/-- Method `WebServer::isRequestDone`. -/
def isRequestDone (s : WebServer) : Bool :=
  !s.busy &&
    (match s.current_request with
     | none => false
     | some r => r.processed)

/-- Method `WebServer::finishRequest`: the returned pointer (with `processed`
reset when it is not null) and the server afterwards. -/
def finishRequest (s : WebServer) : Option Request × WebServer :=
  (s.current_request.map (fun r => { r with processed := false }),
   { s with current_request := none })

/-- `n` consecutive calls of `WebServer::processCycle`. -/
def processCycles : Nat → WebServer → Option WebServer
  | 0, s => some s
  | n + 1, s =>
    match s.processCycle with
    | none => none
    | some s1 => processCycles n s1

/-- States of one server reachable from the constructor by calls of its public
mutators (with non-null requests). -/
inductive Reachable : WebServer → Prop
  | ctor : Reachable WebServer.new
  | assign (s : WebServer) (req : Request) (t : Int) :
      Reachable s → Reachable (s.assignRequest req t).1
  | cycle (s s1 : WebServer) :
      Reachable s → s.processCycle = some s1 → Reachable s1
  | finish (s : WebServer) :
      Reachable s → Reachable s.finishRequest.2

end WebServer

/-! ## loadbalancer.h / loadbalancer.cpp -/

/-- The global `rand()` stream: `draws i` is the value returned by the `i`-th
call of `rand()`, `pos` the number of calls made so far. -/
structure RandStream where
  draws : Nat → Nat
  pos : Nat

/-- One call of `rand()`: the draw and the stream afterwards. -/
def rand (g : RandStream) : Nat × RandStream :=
  (g.draws g.pos, { g with pos := g.pos + 1 })

/-- Call `s.substr(0, n)`. -/
def substr0 (s : String) (n : Nat) : String := ⟨s.data.take n⟩

/-- Lookup `m.find(k)` in a `std::map<std::string,int>`: the mapped value, or
`none` for `end()`. -/
def mapFind : List (String × Int) → String → Option Int
  | [], _ => none
  | (k1, v1) :: rest, k => if k1 = k then some v1 else mapFind rest k

/-- Assignment `m[k] = v` in a `std::map<std::string,int>`. -/
def mapSet : List (String × Int) → String → Int → List (String × Int)
  | [], k, v => [(k, v)]
  | (k1, v1) :: rest, k, v =>
    if k1 = k then (k, v) :: rest else (k1, v1) :: mapSet rest k v

/-- Call `s.insert(k)` on a `std::set<std::string>`. -/
def setInsert (s : List String) (k : String) : List String :=
  if k ∈ s then s else s ++ [k]

/-- The `LoadBalancer` class (private members, in declaration order). -/
structure LoadBalancer where
  request_queue : List Request
  servers : List WebServer
  current_time : Int
  min_servers : Int
  max_servers : Int
  server_id_counter : Int
  ip_request_count : List (String × Int)
  blocked_ips : List String
  blocked_requests : Int
  max_requests_per_ip : Int
deriving DecidableEq, Repr

namespace LoadBalancer

/-- Method `LoadBalancer::generateRandomIP`.  The four draws are taken left to
right (C++ leaves the order of the four `rand()` calls unspecified; the theorems
below hold for every stream, hence for every order). -/
def generateRandomIP (g : RandStream) : String × RandStream :=
  let (a, g1) := rand g
  let (b, g2) := rand g1
  let (c, g3) := rand g2
  let (d, g4) := rand g3
  let ip := toString (a % 256) ++ "." ++ toString (b % 256) ++ "." ++
            toString (c % 256) ++ "." ++ toString (d % 256)
  if ip.length < 7 || ip.length > 15 then ("0.0.0.0", g4) else (ip, g4)

/-- Method `LoadBalancer::isIPBlocked`. -/
def isIPBlocked (lb : LoadBalancer) (ip : String) : Bool :=
  if ip.length = 0 || ip.length < 7 then false
  else if ip ∈ lb.blocked_ips then true
  else if ip.length ≥ 8 && substr0 ip 8 = "192.168." then true
  else if ip.length ≥ 3 && substr0 ip 3 = "10." then true
  else if ip.length ≥ 4 && substr0 ip 4 = "127." then true
  else false

/-- Method `LoadBalancer::blockIP`. -/
def blockIP (lb : LoadBalancer) (ip : String) : LoadBalancer :=
  { lb with blocked_ips := setInsert lb.blocked_ips ip }

/-- The body of `LoadBalancer::generateRandomRequest` after the two addresses
`in` and `out` have been generated (lines 142-169): the returned pointer, the
load balancer afterwards and the rest of the random stream. -/
def generateRandomRequestWith (lb : LoadBalancer) (g : RandStream) (ip_in ip_out : String)
    (arrival_time : Int) : Option Request × LoadBalancer × RandStream :=
  if ip_in.length = 0 || ip_out.length = 0 then
    (none, lb, g)
  else if lb.isIPBlocked ip_in then
    (none, { lb with blocked_requests := lb.blocked_requests + 1 }, g)
  else
    let cnt : Int :=
      match mapFind lb.ip_request_count ip_in with
      | none => 1
      | some c => c + 1
    let lb1 : LoadBalancer :=
      { lb with ip_request_count := mapSet lb.ip_request_count ip_in cnt }
    if cnt > lb1.max_requests_per_ip then
      let lb2 := lb1.blockIP ip_in
      (none, { lb2 with blocked_requests := lb2.blocked_requests + 1 }, g)
    else
      let r := rand g
      (some (Request.new ip_in ip_out (1 + (r.1 % 10 : Nat)) arrival_time), lb1, r.2)

/-- Method `LoadBalancer::generateRandomRequest`. -/
def generateRandomRequest (lb : LoadBalancer) (g : RandStream) (arrival_time : Int) :
    Option Request × LoadBalancer × RandStream :=
  let ip_in := generateRandomIP g
  let ip_out := generateRandomIP ip_in.2
  generateRandomRequestWith lb ip_out.2 ip_in.1 ip_out.1 arrival_time

/-- The statement `if (req) request_queue.push(req);` that follows each call of
`generateRandomRequest` (lines 26-28 and 79-81), applied to the result of that
call. -/
def pushIfAny (res : Option Request × LoadBalancer × RandStream) :
    LoadBalancer × RandStream :=
  match res.1 with
  | some req => ({ res.2.1 with request_queue := res.2.1.request_queue ++ [req] }, res.2.2)
  | none => (res.2.1, res.2.2)

/-- The pre-fill loop of the constructor (lines 24-29), `n` iterations. -/
def prefill : Nat → LoadBalancer → RandStream → LoadBalancer × RandStream
  | 0, lb, g => (lb, g)
  | n + 1, lb, g =>
    let st := pushIfAny (generateRandomRequest lb g lb.current_time)
    prefill n st.1 st.2

/-- The constructor up to the pre-fill loop (lines 9-19): the member
initialisers and the loop that creates `min_servers` servers. -/
def init (initial_servers max_serv : Int) : LoadBalancer :=
  { request_queue := [],
    servers := List.replicate initial_servers.toNat WebServer.new,
    current_time := 0,
    min_servers := initial_servers,
    max_servers := max_serv,
    server_id_counter := 0,
    ip_request_count := [],
    blocked_ips := [],
    blocked_requests := 0,
    max_requests_per_ip := 50 }

/-- Constructor `LoadBalancer::LoadBalancer(initial_servers, max_serv)`. -/
def new (g : RandStream) (initial_servers max_serv : Int) : LoadBalancer × RandStream :=
  let lb0 := init initial_servers max_serv
  prefill (lb0.min_servers * 100).toNat lb0 g

/-- Method `LoadBalancer::addRequest`. -/
def addRequest (lb : LoadBalancer) (g : RandStream) : LoadBalancer × RandStream :=
  let r := rand g
  if r.1 % 10 = 0 then
    pushIfAny (generateRandomRequest lb r.2 lb.current_time)
  else
    (lb, r.2)

/-- The loop of `LoadBalancer::assignRequests` over the servers still to visit,
with the current queue.  The first branch is the body of
`if (!s->isBusy() && !request_queue.empty())`: the server is not busy and the
queue has a front element `req`. -/
def assignLoop (current_time : Int) :
    List WebServer → List Request → List WebServer × List Request
  | [], q => ([], q)
  | s :: rest, q =>
    match s.isBusy, q with
    | false, req :: q1 =>
      let s1 := (s.assignRequest req current_time).1
      let res := assignLoop current_time rest q1
      (s1 :: res.1, res.2)
    | _, _ =>
      let res := assignLoop current_time rest q
      (s :: res.1, res.2)

/-- Method `LoadBalancer::assignRequests`. -/
def assignRequests (lb : LoadBalancer) : LoadBalancer :=
  let res := assignLoop lb.current_time lb.servers lb.request_queue
  { lb with servers := res.1, request_queue := res.2 }

/-- One iteration of the server loop of `LoadBalancer::processCycle`
(lines 58-68); the completed request is deleted. -/
def serverStep (s : WebServer) : Option WebServer :=
  match s.processCycle with
  | none => none
  | some s1 => if s1.isRequestDone then some s1.finishRequest.2 else some s1

/-- The server loop of `LoadBalancer::processCycle` (lines 57-69). -/
def processServers : List WebServer → Option (List WebServer)
  | [] => some []
  | s :: rest =>
    match serverStep s with
    | none => none
    | some s1 =>
      match processServers rest with
      | none => none
      | some rest1 => some (s1 :: rest1)

/-- Method `LoadBalancer::getBusyServers` (the same count is made inline in
`scaleServers`). -/
def getBusyServers (lb : LoadBalancer) : Int :=
  ((lb.servers.filter (fun s => s.isBusy)).length : Int)

/-- Method `LoadBalancer::scaleServers`.  `servers.back()` on an empty pool is
undefined: `none`. -/
def scaleServers (lb : LoadBalancer) : Option LoadBalancer :=
  let load : Int := lb.request_queue.length
  let active : Int := lb.servers.length
  let busy_servers : Int := lb.getBusyServers
  if load > active * 2 && active < lb.max_servers then
    some { lb with servers := lb.servers ++ [WebServer.new] }
  else if load ≤ 5 && active > lb.min_servers && busy_servers = 0 then
    match lb.servers with
    | [] => none
    | _ :: _ => some { lb with servers := lb.servers.dropLast }
  else
    some lb

/-- The state in which `LoadBalancer::processCycle` calls `scaleServers`
(lines 52-69), with the rest of the random stream. -/
def beforeScale (lb : LoadBalancer) (g : RandStream) : Option (LoadBalancer × RandStream) :=
  let lb1 : LoadBalancer := { lb with current_time := lb.current_time + 1 }
  let st := lb1.addRequest g
  let lb3 := st.1.assignRequests
  match processServers lb3.servers with
  | none => none
  | some ss => some ({ lb3 with servers := ss }, st.2)

/-- Method `LoadBalancer::processCycle`. -/
def processCycle (lb : LoadBalancer) (g : RandStream) : Option (LoadBalancer × RandStream) :=
  match lb.beforeScale g with
  | none => none
  | some (lb4, g1) =>
    match lb4.scaleServers with
    | none => none
    | some lb5 => some (lb5, g1)

/-- `n` consecutive calls of `LoadBalancer::processCycle`. -/
def processCycles : Nat → LoadBalancer → RandStream → Option (LoadBalancer × RandStream)
  | 0, lb, g => some (lb, g)
  | n + 1, lb, g =>
    match lb.processCycle g with
    | none => none
    | some (lb1, g1) => processCycles n lb1 g1

/-- Method `LoadBalancer::getStartingQueueSize`. -/
def getStartingQueueSize (lb : LoadBalancer) : Int := lb.min_servers * 100

/-- Method `LoadBalancer::getQueueSize` (`getEndingQueueSize` returns the same
value): `request_queue.size()`. -/
def getQueueSize (lb : LoadBalancer) : Int := (lb.request_queue.length : Int)

/-- Method `LoadBalancer::getBlockedRequests`. -/
def getBlockedRequests (lb : LoadBalancer) : Int := lb.blocked_requests

/-- Method `LoadBalancer::getBlockedIPCount`: `blocked_ips.size()`. -/
def getBlockedIPCount (lb : LoadBalancer) : Int := (lb.blocked_ips.length : Int)

end LoadBalancer

/-! ## Notions used to state the properties -/

/-- The address begins with one of the static prefixes `192.168.`, `10.` or
`127.` (the three range rules of `isIPBlocked`, lines 203-215). -/
def beginsWithStaticRange (ip : String) : Bool :=
  substr0 ip 8 = "192.168." || substr0 ip 3 = "10." || substr0 ip 4 = "127."

/-- The count recorded for `ip` in `ip_request_count`, 0 when there is no
entry. -/
def LoadBalancer.requestCount (lb : LoadBalancer) (ip : String) : Int :=
  (mapFind lb.ip_request_count ip).getD 0

/-- A run of admission decisions: the body of `generateRandomRequest` applied in
turn to each candidate `(source, destination, arrival time)` of a list. -/
def LoadBalancer.admitAll :
    List (String × String × Int) → LoadBalancer × RandStream → LoadBalancer × RandStream
  | [], st => st
  | (a, b, t) :: cs, st => admitAll cs (st.1.generateRandomRequestWith st.2 a b t).2

/-- The load balancer `lb1` can be reached from `lb` by a finite number of
`processCycle` calls and of admission decisions (the body of
`generateRandomRequest`) on arbitrary candidates, in any order. -/
inductive LoadBalancer.Evolves : LoadBalancer → LoadBalancer → Prop
  | refl (lb : LoadBalancer) : Evolves lb lb
  | admission (lb lb1 : LoadBalancer) (g : RandStream) (a b : String) (t : Int) :
      Evolves lb lb1 → Evolves lb (lb1.generateRandomRequestWith g a b t).2.1
  | cycle (lb lb1 lb2 : LoadBalancer) (g g2 : RandStream) :
      Evolves lb lb1 → lb1.processCycle g = some (lb2, g2) → Evolves lb lb2

/-- A load balancer as the constructor leaves it when given no servers: empty
queue, pool, count map and blocked set, threshold 50. -/
def LoadBalancer.fresh : LoadBalancer :=
  { request_queue := [], servers := [], current_time := 0, min_servers := 0,
    max_servers := 0, server_id_counter := 0, ip_request_count := [],
    blocked_ips := [], blocked_requests := 0, max_requests_per_ip := 50 }

/-- The random stream whose every draw is 0. -/
def zeroStream : RandStream := { draws := fun _ => 0, pos := 0 }

/-- State of the rate limiter for address `A` after `n` admission checks for `A`
that started from "no count, not blocked, threshold 50". -/
def LoadBalancer.CountedTimes (A : String) (n : Nat) (lb : LoadBalancer) : Prop :=
  lb.max_requests_per_ip = 50 ∧
  mapFind lb.ip_request_count A = (if n = 0 then none else some ((min n 51 : Nat) : Int)) ∧
  (A ∈ lb.blocked_ips ↔ 51 ≤ n)

/-- Every blocked address has a recorded count above the threshold. -/
def LoadBalancer.BlockedJustified (lb : LoadBalancer) : Prop :=
  ∀ a ∈ lb.blocked_ips,
    ∃ c, mapFind lb.ip_request_count a = some c ∧ lb.max_requests_per_ip < c

/-- The admission state of `lb1` is that of `lb` grown: same threshold, every
blocked address still blocked, every recorded count still recorded and not
smaller, `blocked_requests` not smaller, and `BlockedJustified` carried over. -/
def LoadBalancer.AdmissionGrows (lb lb1 : LoadBalancer) : Prop :=
  lb1.max_requests_per_ip = lb.max_requests_per_ip ∧
  (∀ a, a ∈ lb.blocked_ips → a ∈ lb1.blocked_ips) ∧
  (∀ a c, mapFind lb.ip_request_count a = some c →
    ∃ c1, mapFind lb1.ip_request_count a = some c1 ∧ c ≤ c1) ∧
  lb.blocked_requests ≤ lb1.blocked_requests ∧
  (lb.BlockedJustified → lb1.BlockedJustified)

/-- States reachable from the constructor call `LoadBalancer(i, m)` by
`processCycle` calls, for any random draws. -/
inductive LoadBalancer.ReachableFrom (i m : Int) : LoadBalancer → Prop
  | ctor (g : RandStream) : ReachableFrom i m (LoadBalancer.new g i m).1
  | cycle (lb lb2 : LoadBalancer) (g g2 : RandStream) :
      ReachableFrom i m lb → lb.processCycle g = some (lb2, g2) → ReachableFrom i m lb2

/-- A server is busy exactly when it holds a request. -/
def WebServer.Consistent (s : WebServer) : Prop :=
  (s.busy = true → s.current_request ≠ none) ∧ (s.busy = false → s.current_request = none)

/-- The scale-up guard of `scaleServers` (line 107): `load > active * 2` and
`active < max_servers`. -/
def LoadBalancer.Overloaded (lb : LoadBalancer) : Prop :=
  (lb.request_queue.length : Int) > (lb.servers.length : Int) * 2 ∧
  (lb.servers.length : Int) < lb.max_servers

/-- The scale-down guard of `scaleServers` (line 113): `load <= 5`,
`active > min_servers` and no busy server. -/
def LoadBalancer.Underloaded (lb : LoadBalancer) : Prop :=
  (lb.request_queue.length : Int) ≤ 5 ∧
  (lb.servers.length : Int) > lb.min_servers ∧
  lb.getBusyServers = 0

/-- The two load balancers have the same server pool and the same pool
bounds. -/
def LoadBalancer.SamePool (lb lb1 : LoadBalancer) : Prop :=
  lb1.servers = lb.servers ∧ lb1.min_servers = lb.min_servers ∧
  lb1.max_servers = lb.max_servers

instance (lb : LoadBalancer) : Decidable lb.Overloaded :=
  inferInstanceAs (Decidable (_ ∧ _))

instance (lb : LoadBalancer) : Decidable lb.Underloaded :=
  inferInstanceAs (Decidable (_ ∧ _ ∧ _))

/-- Three idle servers, seven queued requests, `min_servers = 3`,
`max_servers = 6`. -/
def LoadBalancer.poolOfThree : LoadBalancer :=
  { LoadBalancer.fresh with
    servers := List.replicate 3 WebServer.new,
    request_queue := List.replicate 7 (Request.new "8.8.8.8" "1.1.1.1" 3 0),
    min_servers := 3, max_servers := 6 }

/-- The load balancer built by `LoadBalancer(0, 1)` with all draws 0, after its
first `processCycle`: one request queued, one idle server added by the
scale-up. -/
def LoadBalancer.afterFirstCycle : LoadBalancer :=
  { LoadBalancer.fresh with
    request_queue := [Request.new "0.0.0.0" "0.0.0.0" 1 1],
    servers := [WebServer.new],
    current_time := 1, min_servers := 0, max_servers := 1,
    ip_request_count := [("0.0.0.0", 1)] }

/-- The state in which the second `processCycle` of that load balancer calls
`scaleServers`: the first request was served within the cycle, a second one is
queued, the server is idle. -/
def LoadBalancer.secondCycleBeforeScale : LoadBalancer :=
  { LoadBalancer.fresh with
    request_queue := [Request.new "0.0.0.0" "0.0.0.0" 1 2],
    servers := [WebServer.new],
    current_time := 2, min_servers := 0, max_servers := 1,
    ip_request_count := [("0.0.0.0", 2)] }

/-- Number of non-busy servers among the first `i` servers of the pool, i.e. the
rank of server `i` among the non-busy servers, in pool order. -/
def idleBefore (ss : List WebServer) (i : Nat) : Nat :=
  ((ss.take i).filter (fun s => !s.isBusy)).length

/-- What the dispatch loop makes of one server `s`, given the request (if any)
that queue order and pool order pair it with: a busy server is left alone, a
non-busy server takes the request, stamped with the dispatch time. -/
def dispatched (t : Int) (s : WebServer) (r : Option Request) : WebServer :=
  if s.isBusy then s
  else
    match r with
    | some req =>
      { busy := true, time_remaining := req.process_time,
        current_request := some { req with assigned_time := t } }
    | none => s

/-- Two idle servers at `max_servers = 2`, five queued requests,
`min_servers = 1`. -/
def LoadBalancer.atCapacity : LoadBalancer :=
  { LoadBalancer.fresh with
    servers := List.replicate 2 WebServer.new,
    request_queue := List.replicate 5 (Request.new "8.8.8.8" "1.1.1.1" 3 0),
    min_servers := 1, max_servers := 2 }

/-- The random stream whose every draw is 10: every generated address is
`10.10.10.10`. -/
def tenStream : RandStream := { draws := fun _ => 10, pos := 0 }

/-- The two load balancers have the same admission state: threshold, blocked
set, count map and blocked-request counter. -/
def LoadBalancer.SameAdmission (lb lb1 : LoadBalancer) : Prop :=
  lb1.max_requests_per_ip = lb.max_requests_per_ip ∧
  lb1.blocked_ips = lb.blocked_ips ∧
  lb1.ip_request_count = lb.ip_request_count ∧
  lb1.blocked_requests = lb.blocked_requests

/-- From `lb` to `lb1` the blocked set has not grown by more entries than
`blocked_requests` has grown. -/
def LoadBalancer.BlockedSlack (lb lb1 : LoadBalancer) : Prop :=
  (lb1.blocked_ips.length : Int) - lb1.blocked_requests ≤
    (lb.blocked_ips.length : Int) - lb.blocked_requests

/-- The `processCycle` call made in state `lb` with stream `g` enqueues no new
request: the arrival draw of `addRequest` fails (`rand() % 10 != 0`), or the
candidate generated at the new clock value is rejected. -/
def LoadBalancer.NoArrival (lb : LoadBalancer) (g : RandStream) : Prop :=
  (rand g).1 % 10 ≠ 0 ∨
  (({ lb with current_time := lb.current_time + 1 } : LoadBalancer).generateRandomRequest
      (rand g).2 (lb.current_time + 1)).1 = none

/-- The random stream whose every draw is 1: every arrival draw fails. -/
def oneStream : RandStream := { draws := fun _ => 1, pos := 0 }

/-- The random stream whose draws are 192, 168, 1, 5 and then 8 for ever: the
first generated address is `192.168.1.5`, the second `8.8.8.8`. -/
def privateStream : RandStream :=
  { draws := fun i => [192, 168, 1, 5].getD i 8, pos := 0 }

/-! # Theorems -/

/-! ## Web server -/

namespace WebServer

theorem processCycle_skip (s : WebServer)
    (h : ¬ (s.busy = true ∧ 0 < s.time_remaining)) : s.processCycle = some s := by
  unfold processCycle
  rw [if_neg]
  simpa using h

theorem processCycle_busy_pos (s : WebServer) (hb : s.busy = true)
    (h1 : 0 < s.time_remaining) (h2 : s.time_remaining - 1 ≠ 0) :
    s.processCycle = some { s with time_remaining := s.time_remaining - 1 } := by
  unfold processCycle
  rw [if_pos (by simp [hb, h1])]
  simp only []
  rw [if_neg h2]

theorem processCycle_busy_last (s : WebServer) (hb : s.busy = true)
    (h1 : s.time_remaining = 1) :
    s.processCycle =
      (match s.current_request with
       | none => none
       | some r => some { busy := false, time_remaining := 0,
                          current_request := some { r with processed := true } }) := by
  unfold processCycle
  rw [if_pos (by simp [hb, h1])]
  simp only []
  rw [if_pos (by omega)]
  cases s.current_request <;> simp [h1]

/-- The three ways a cycle can end, read off the result. -/
theorem processCycle_cases (s s1 : WebServer) (h : s.processCycle = some s1) :
    s1 = s ∨
    (s.busy = true ∧ 1 < s.time_remaining ∧
      s1 = { s with time_remaining := s.time_remaining - 1 }) ∨
    (s.busy = true ∧ s.time_remaining = 1 ∧ ∃ r, s.current_request = some r ∧
      s1 = { busy := false, time_remaining := 0,
             current_request := some { r with processed := true } }) := by
  by_cases hc : s.busy = true ∧ 0 < s.time_remaining
  · obtain ⟨hb, hp⟩ := hc
    by_cases h1 : s.time_remaining = 1
    · rw [processCycle_busy_last s hb h1] at h
      cases hr : s.current_request with
      | none => rw [hr] at h; exact absurd h (by simp)
      | some r =>
        rw [hr] at h
        right; right
        exact ⟨hb, h1, r, rfl, (Option.some.inj h).symm⟩
    · rw [processCycle_busy_pos s hb hp (by omega)] at h
      right; left
      exact ⟨hb, by omega, (Option.some.inj h).symm⟩
  · rw [processCycle_skip s hc] at h
    left
    exact (Option.some.inj h).symm

/-- Countdown: a busy server holding `r` with `k + j` cycles left (`j ≥ 1`) is,
after `k` cycles, busy holding `r` with `j` cycles left. -/
theorem processCycles_countdown (r : Request) (k : Nat) :
    ∀ j : Nat, 1 ≤ j →
      processCycles k { busy := true, time_remaining := ((k + j : Nat) : Int),
                        current_request := some r }
        = some { busy := true, time_remaining := (j : Int), current_request := some r } := by
  induction k with
  | zero => intro j _; simp [processCycles]
  | succ k ih =>
    intro j hj
    have hstep := processCycle_busy_pos
      { busy := true, time_remaining := ((k + 1 + j : Nat) : Int), current_request := some r }
      rfl (by simp only []; omega) (by simp only []; omega)
    simp only [processCycles, hstep]
    have e : ((k + 1 + j : Nat) : Int) - 1 = ((k + j : Nat) : Int) := by omega
    rw [e]
    exact ih j hj

end WebServer

/-- C5. Server invariant: in every `WebServer` state reachable from the
constructor by `assignRequest`, `processCycle` and `finishRequest` calls, a server
that is not busy has `time_remaining = 0`. -/
theorem server_idle_has_no_time_remaining (s : WebServer) (h : WebServer.Reachable s) :
    s.busy = false → s.time_remaining = 0 := by
  induction h with
  | ctor => intro _; rfl
  | assign s req t _ ih =>
    intro hb
    unfold WebServer.assignRequest at hb ⊢
    cases hs : s.busy <;> simp [hs] at hb
  | cycle s s1 _ hstep ih =>
    intro hb
    rcases WebServer.processCycle_cases s s1 hstep with h | ⟨hb1, _, h⟩ | ⟨_, _, r, _, h⟩
    · subst h; exact ih hb
    · subst h; simp [hb1] at hb
    · subst h; rfl
  | finish s _ ih =>
    intro hb
    exact ih hb

/-- Witness for C5: the server that has just completed a one-cycle request
assigned at tick 7 is reachable and idle, and its `time_remaining` is 0. -/
theorem server_idle_has_no_time_remaining_witness :
    (⟨false, 0, some ⟨"8.8.8.8", "1.1.1.1", 1, 0, 7, true⟩⟩ : WebServer).time_remaining = 0 :=
  server_idle_has_no_time_remaining
    ⟨false, 0, some ⟨"8.8.8.8", "1.1.1.1", 1, 0, 7, true⟩⟩
    (WebServer.Reachable.cycle
      (WebServer.new.assignRequest (Request.new "8.8.8.8" "1.1.1.1" 1 0) 7).1 _
      (WebServer.Reachable.assign _ _ _ WebServer.Reachable.ctor) (by decide))
    rfl

namespace WebServer

theorem processCycles_add (m n : Nat) (s : WebServer) :
    processCycles (m + n) s =
      (match processCycles m s with
       | none => none
       | some s1 => processCycles n s1) := by
  induction m generalizing s with
  | zero => simp [processCycles]
  | succ m ih =>
    have e : m + 1 + n = (m + n) + 1 := by omega
    rw [e]
    simp only [processCycles]
    cases s.processCycle with
    | none => rfl
    | some s1 => exact ih s1

theorem assignRequest_idle (s : WebServer) (req : Request) (t : Int) (h : s.busy = false) :
    s.assignRequest req t =
      ({ busy := true, time_remaining := req.process_time,
         current_request := some { req with assigned_time := t } },
       { req with assigned_time := t }) := by
  simp [assignRequest, h]

end WebServer

/-- C6. Server service lifecycle.  For an idle server `s` and a request `req` of
service duration `d ≥ 1`: after `assignRequest(req, T)` the server is busy with
`time_remaining = d` and holds `req` with `assigned_time = T`; after `k < d` calls
of `processCycle` it is still busy with `time_remaining = d - k`; after exactly
`d` calls `isBusy()` is false, `isRequestDone()` is true and `time_remaining = 0`;
`finishRequest()` then returns that request (the object `req`, carrying
`assigned_time = T` and `processed` reset to false) and leaves the server in the
constructor state: idle, no request. -/
theorem server_service_lifecycle (s : WebServer) (req : Request) (T : Int) (d : Nat)
    (hidle : s.isBusy = false) (hd : 1 ≤ d) (hreq : req.process_time = (d : Int)) :
    (s.assignRequest req T).1.isBusy = true ∧
    (s.assignRequest req T).1.time_remaining = (d : Int) ∧
    (s.assignRequest req T).1.current_request = some { req with assigned_time := T } ∧
    (s.assignRequest req T).2 = { req with assigned_time := T } ∧
    (s.assignRequest req T).2.assigned_time = T ∧
    (∀ k : Nat, k < d →
      (s.assignRequest req T).1.processCycles k =
        some { busy := true, time_remaining := (d : Int) - (k : Int),
               current_request := some { req with assigned_time := T } }) ∧
    (∃ s2 : WebServer,
      (s.assignRequest req T).1.processCycles d = some s2 ∧
      s2.isBusy = false ∧ s2.isRequestDone = true ∧ s2.time_remaining = 0 ∧
      s2.finishRequest.1 = some { req with assigned_time := T, processed := false } ∧
      s2.finishRequest.2 = WebServer.new ∧
      s2.finishRequest.2.isBusy = false ∧ s2.finishRequest.2.current_request = none) := by
  have hb : s.busy = false := hidle
  rw [WebServer.assignRequest_idle s req T hb]
  obtain ⟨a, b, p, ar, asg, pr⟩ := req
  simp only at hreq
  subst hreq
  refine ⟨rfl, rfl, rfl, rfl, rfl, ?_, ?_⟩
  · intro k hk
    have h := WebServer.processCycles_countdown ⟨a, b, (d : Int), ar, T, pr⟩ k (d - k) (by omega)
    have e1 : ((k + (d - k) : Nat) : Int) = (d : Int) := by omega
    have e2 : ((d - k : Nat) : Int) = (d : Int) - (k : Int) := by omega
    rw [e1, e2] at h
    exact h
  · have h := WebServer.processCycles_countdown ⟨a, b, (d : Int), ar, T, pr⟩ (d - 1) 1 (by omega)
    have e1 : ((d - 1 + 1 : Nat) : Int) = (d : Int) := by omega
    rw [e1] at h
    have hd1 : d = (d - 1) + 1 := by omega
    refine ⟨{ busy := false, time_remaining := 0,
              current_request := some ⟨a, b, (d : Int), ar, T, true⟩ },
            ?_, rfl, rfl, rfl, rfl, rfl, rfl, rfl⟩
    rw [hd1, WebServer.processCycles_add, ← hd1, h]
    simp only [WebServer.processCycles]
    rw [WebServer.processCycle_busy_last _ rfl (by simp)]

/-- Witness for C6: a request of duration 3 assigned at tick 7 to a fresh
server. -/
theorem server_service_lifecycle_witness :
    ((WebServer.new.assignRequest (Request.new "8.8.8.8" "1.1.1.1" 3 0) 7).1.processCycles 2 =
        some { busy := true, time_remaining := 1,
               current_request := some ⟨"8.8.8.8", "1.1.1.1", 3, 0, 7, false⟩ }) ∧
    (∃ s2 : WebServer,
      (WebServer.new.assignRequest (Request.new "8.8.8.8" "1.1.1.1" 3 0) 7).1.processCycles 3 = some s2 ∧
      s2.isBusy = false ∧ s2.isRequestDone = true ∧ s2.time_remaining = 0 ∧
      s2.finishRequest.1 = some ⟨"8.8.8.8", "1.1.1.1", 3, 0, 7, false⟩ ∧
      s2.finishRequest.2 = WebServer.new) := by
  have h := server_service_lifecycle WebServer.new (Request.new "8.8.8.8" "1.1.1.1" 3 0) 7 3
    rfl (by decide) rfl
  obtain ⟨_, _, _, _, _, hk, s2, h1, h2, h3, h4, h5, h6, _, _⟩ := h
  exact ⟨hk 2 (by decide), s2, h1, h2, h3, h4, h5, h6⟩

/-! ## Admission control -/

theorem mapFind_mapSet_same (m : List (String × Int)) (k : String) (v : Int) :
    mapFind (mapSet m k v) k = some v := by
  induction m with
  | nil => simp [mapSet, mapFind]
  | cons p rest ih =>
    obtain ⟨k1, v1⟩ := p
    by_cases h : k1 = k
    · simp [mapSet, mapFind, h]
    · simp [mapSet, mapFind, h, ih]

theorem mapFind_mapSet_other (m : List (String × Int)) (k k2 : String) (v : Int)
    (hne : k2 ≠ k) : mapFind (mapSet m k v) k2 = mapFind m k2 := by
  induction m with
  | nil => simp [mapSet, mapFind, Ne.symm hne]
  | cons p rest ih =>
    obtain ⟨k1, v1⟩ := p
    by_cases h : k1 = k
    · subst h
      simp [mapSet, mapFind, Ne.symm hne]
    · by_cases h2 : k1 = k2
      · subst h2
        simp [mapSet, mapFind, h]
      · simp [mapSet, mapFind, h, h2, ih]

theorem mem_setInsert (s : List String) (k a : String) :
    a ∈ setInsert s k ↔ a ∈ s ∨ a = k := by
  unfold setInsert
  split
  · constructor
    · intro h; exact Or.inl h
    · rintro (h | h)
      · exact h
      · subst h; assumption
  · simp

theorem substr0_length (s : String) (n : Nat) : (substr0 s n).length = min n s.length := by
  show (s.data.take n).length = min n s.data.length
  exact List.length_take n s.data

namespace LoadBalancer

/-- For an address of at least 7 characters `isIPBlocked` is exactly: in the
blocked set, or inside a static range. -/
theorem isIPBlocked_long (lb : LoadBalancer) (ip : String) (h : 7 ≤ ip.length) :
    lb.isIPBlocked ip = (decide (ip ∈ lb.blocked_ips) || beginsWithStaticRange ip) := by
  have h8 : substr0 ip 8 = "192.168." → 8 ≤ ip.length := by
    intro e
    have := substr0_length ip 8
    rw [e] at this
    have e8 : "192.168.".length = 8 := by decide
    omega
  have h0 : ¬ (ip.length = 0) := by omega
  have h7 : ¬ (ip.length < 7) := by omega
  have h3 : 3 ≤ ip.length := by omega
  have h4 : 4 ≤ ip.length := by omega
  unfold isIPBlocked beginsWithStaticRange
  by_cases hm : ip ∈ lb.blocked_ips
  · simp [h0, h7, hm]
  · by_cases e8 : substr0 ip 8 = "192.168."
    · simp [h0, h7, hm, e8, h8 e8]
    · by_cases e3 : substr0 ip 3 = "10."
      · simp [h0, h7, hm, e8, e3, h3]
      · by_cases e4 : substr0 ip 4 = "127."
        · simp [h0, h7, hm, e8, e3, e4, h4]
        · simp [h0, h7, hm, e8, e3, e4]

/-- An address shorter than 7 characters is never reported blocked. -/
theorem isIPBlocked_short (lb : LoadBalancer) (ip : String) (h : ip.length < 7) :
    lb.isIPBlocked ip = false := by
  unfold isIPBlocked
  simp [h]

/-- Early exit of `generateRandomRequest`: an empty address. -/
theorem generateRandomRequestWith_empty (lb : LoadBalancer) (g : RandStream)
    (a b : String) (t : Int) (h : a.length = 0 ∨ b.length = 0) :
    lb.generateRandomRequestWith g a b t = (none, lb, g) := by
  unfold generateRandomRequestWith
  rw [if_pos (by simpa using h)]

/-- Rejection through `isIPBlocked`. -/
theorem generateRandomRequestWith_blocked (lb : LoadBalancer) (g : RandStream)
    (a b : String) (t : Int) (ha : a.length ≠ 0) (hb : b.length ≠ 0)
    (h : lb.isIPBlocked a = true) :
    lb.generateRandomRequestWith g a b t =
      (none, { lb with blocked_requests := lb.blocked_requests + 1 }, g) := by
  unfold generateRandomRequestWith
  rw [if_neg (by simp [ha, hb]), if_pos h]

/-- Rejection because the incremented count exceeds the threshold. -/
theorem generateRandomRequestWith_over (lb : LoadBalancer) (g : RandStream)
    (a b : String) (t : Int) (ha : a.length ≠ 0) (hb : b.length ≠ 0)
    (h : lb.isIPBlocked a = false)
    (hc : lb.max_requests_per_ip < lb.requestCount a + 1) :
    lb.generateRandomRequestWith g a b t =
      (none,
       { lb with ip_request_count := mapSet lb.ip_request_count a (lb.requestCount a + 1),
                 blocked_ips := setInsert lb.blocked_ips a,
                 blocked_requests := lb.blocked_requests + 1 }, g) := by
  unfold generateRandomRequestWith requestCount at *
  rw [if_neg (by simp [ha, hb]), if_neg (by simp [h])]
  cases hf : mapFind lb.ip_request_count a with
  | none =>
    rw [hf] at hc
    simp only [Option.getD_none, zero_add] at hc ⊢
    rw [if_pos (by simpa using hc)]
    rfl
  | some c =>
    rw [hf] at hc
    simp only [Option.getD_some] at hc ⊢
    rw [if_pos (by simpa using hc)]
    rfl

/-- Acceptance: the count is incremented and a request is created. -/
theorem generateRandomRequestWith_accept (lb : LoadBalancer) (g : RandStream)
    (a b : String) (t : Int) (ha : a.length ≠ 0) (hb : b.length ≠ 0)
    (h : lb.isIPBlocked a = false)
    (hc : lb.requestCount a + 1 ≤ lb.max_requests_per_ip) :
    lb.generateRandomRequestWith g a b t =
      (some (Request.new a b (1 + ((rand g).1 % 10 : Nat)) t),
       { lb with ip_request_count := mapSet lb.ip_request_count a (lb.requestCount a + 1) },
       (rand g).2) := by
  unfold generateRandomRequestWith requestCount at *
  rw [if_neg (by simp [ha, hb]), if_neg (by simp [h])]
  cases hf : mapFind lb.ip_request_count a with
  | none =>
    rw [hf] at hc
    simp only [Option.getD_none, zero_add] at hc ⊢
    rw [if_neg (by simpa using hc)]
  | some c =>
    rw [hf] at hc
    simp only [Option.getD_some] at hc ⊢
    rw [if_neg (by simpa using hc)]

end LoadBalancer

theorem length_ne_zero_of_ne_empty (s : String) (h : s ≠ "") : s.length ≠ 0 := by
  intro h0
  apply h
  have : s.data = [] := List.length_eq_zero.mp h0
  exact String.ext this

/-- C4. Blocked-request accounting: for every state and every candidate with
non-empty source and destination addresses, `generateRandomRequest` returns no
request exactly when the candidate is rejected (by `isIPBlocked`, i.e. blocked
set or static range, or because the incremented count exceeds the threshold);
when it rejects, `blocked_requests` grows by exactly 1, and when it returns a
request `blocked_requests` is unchanged. -/
theorem blocked_request_accounting (lb : LoadBalancer) (g : RandStream)
    (a b : String) (t : Int) (ha : a ≠ "") (hb : b ≠ "") :
    ((lb.generateRandomRequestWith g a b t).1 = none ↔
      (lb.isIPBlocked a = true ∨ lb.max_requests_per_ip < lb.requestCount a + 1)) ∧
    ((lb.generateRandomRequestWith g a b t).1 = none →
      (lb.generateRandomRequestWith g a b t).2.1.blocked_requests = lb.blocked_requests + 1) ∧
    ((lb.generateRandomRequestWith g a b t).1 ≠ none →
      (lb.generateRandomRequestWith g a b t).2.1.blocked_requests = lb.blocked_requests) := by
  have ha1 := length_ne_zero_of_ne_empty a ha
  have hb1 := length_ne_zero_of_ne_empty b hb
  cases hblk : lb.isIPBlocked a with
  | true =>
    rw [LoadBalancer.generateRandomRequestWith_blocked lb g a b t ha1 hb1 hblk]
    simp
  | false =>
    by_cases hc : lb.max_requests_per_ip < lb.requestCount a + 1
    · rw [LoadBalancer.generateRandomRequestWith_over lb g a b t ha1 hb1 hblk hc]
      simp [hc]
    · rw [LoadBalancer.generateRandomRequestWith_accept lb g a b t ha1 hb1 hblk (by omega)]
      simp [hc]

/-- Witness for C4: the candidate `8.8.8.8 -> 1.1.1.1` on a fresh load
balancer. -/
theorem blocked_request_accounting_witness :
    ((LoadBalancer.fresh.generateRandomRequestWith zeroStream "8.8.8.8" "1.1.1.1" 0).1 = none ↔
      (LoadBalancer.fresh.isIPBlocked "8.8.8.8" = true ∨
        LoadBalancer.fresh.max_requests_per_ip < LoadBalancer.fresh.requestCount "8.8.8.8" + 1)) ∧
    ((LoadBalancer.fresh.generateRandomRequestWith zeroStream "8.8.8.8" "1.1.1.1" 0).1 = none →
      (LoadBalancer.fresh.generateRandomRequestWith zeroStream "8.8.8.8" "1.1.1.1" 0).2.1.blocked_requests
        = LoadBalancer.fresh.blocked_requests + 1) ∧
    ((LoadBalancer.fresh.generateRandomRequestWith zeroStream "8.8.8.8" "1.1.1.1" 0).1 ≠ none →
      (LoadBalancer.fresh.generateRandomRequestWith zeroStream "8.8.8.8" "1.1.1.1" 0).2.1.blocked_requests
        = LoadBalancer.fresh.blocked_requests) :=
  blocked_request_accounting LoadBalancer.fresh zeroStream "8.8.8.8" "1.1.1.1" 0
    (by decide) (by decide)

/-- An address of at least 7 characters that begins with `10.`, `127.` or
`192.168.` is rejected by the admission check in every state: no request is
returned, `ip_request_count` and `blocked_ips` are left as they were, and when
the destination is non-empty the only change is `blocked_requests + 1`. -/
theorem LoadBalancer.generateRandomRequestWith_static_range (lb : LoadBalancer)
    (g : RandStream) (a b : String) (t : Int)
    (hlen : 7 ≤ a.length) (hs : beginsWithStaticRange a = true) :
    (lb.generateRandomRequestWith g a b t).1 = none ∧
    (lb.generateRandomRequestWith g a b t).2.1.ip_request_count = lb.ip_request_count ∧
    (lb.generateRandomRequestWith g a b t).2.1.blocked_ips = lb.blocked_ips ∧
    (b ≠ "" → (lb.generateRandomRequestWith g a b t).2.1 =
      { lb with blocked_requests := lb.blocked_requests + 1 }) := by
  have hblk : lb.isIPBlocked a = true := by
    rw [LoadBalancer.isIPBlocked_long lb a hlen, hs]
    simp
  have ha1 : a.length ≠ 0 := by omega
  by_cases hb : b = ""
  · rw [LoadBalancer.generateRandomRequestWith_empty lb g a b t (Or.inr (by simp [hb]))]
    simp [hb]
  · have hb1 := length_ne_zero_of_ne_empty b hb
    rw [LoadBalancer.generateRandomRequestWith_blocked lb g a b t ha1 hb1 hblk]
    simp

namespace LoadBalancer

theorem countedTimes_step (A : String) (hlen : 7 ≤ A.length)
    (hstat : beginsWithStaticRange A = false) (n : Nat) (lb : LoadBalancer)
    (hP : CountedTimes A n lb) (g : RandStream) (b : String) (t : Int) (hb : b.length ≠ 0) :
    CountedTimes A (n + 1) (lb.generateRandomRequestWith g A b t).2.1 ∧
    (n < 50 → ((lb.generateRandomRequestWith g A b t).1).isSome = true) ∧
    (50 ≤ n → (lb.generateRandomRequestWith g A b t).1 = none) ∧
    (lb.isIPBlocked A = decide (51 ≤ n)) := by
  obtain ⟨hmax, hfind, hmem⟩ := hP
  have ha : A.length ≠ 0 := by omega
  have hcount : lb.requestCount A = ((min n 51 : Nat) : Int) := by
    unfold requestCount
    rw [hfind]
    by_cases h0 : n = 0
    · simp [h0]
    · simp [h0]
  by_cases h51 : 51 ≤ n
  · have hin : A ∈ lb.blocked_ips := hmem.mpr h51
    have hblk : lb.isIPBlocked A = true := by
      rw [isIPBlocked_long lb A hlen]; simp [hin]
    rw [generateRandomRequestWith_blocked lb g A b t ha hb hblk]
    refine ⟨⟨hmax, ?_, ?_⟩, ?_, ?_, ?_⟩
    · show mapFind lb.ip_request_count A = _
      rw [hfind]
      have e1 : min n 51 = 51 := by omega
      have e2 : min (n + 1) 51 = 51 := by omega
      have n0 : n ≠ 0 := by omega
      simp [e1, e2, n0]
    · show A ∈ lb.blocked_ips ↔ _
      constructor
      · intro _; omega
      · intro _; exact hin
    · intro h; omega
    · intro _; rfl
    · simp [hblk, h51]
  · have hnin : A ∉ lb.blocked_ips := fun h => h51 (hmem.mp h)
    have hblk : lb.isIPBlocked A = false := by
      rw [isIPBlocked_long lb A hlen]; simp [hnin, hstat]
    have emin : min n 51 = n := by omega
    rw [emin] at hcount
    by_cases h50 : n = 50
    · rw [generateRandomRequestWith_over lb g A b t ha hb hblk (by rw [hcount, hmax]; omega)]
      refine ⟨⟨hmax, ?_, ?_⟩, ?_, ?_, ?_⟩
      · show mapFind (mapSet lb.ip_request_count A (lb.requestCount A + 1)) A = _
        rw [mapFind_mapSet_same, hcount]
        subst h50
        simp
      · show A ∈ setInsert lb.blocked_ips A ↔ _
        rw [mem_setInsert]
        constructor
        · intro _; omega
        · intro _; exact Or.inr rfl
      · intro h; omega
      · intro _; rfl
      · simp [hblk, h51]
    · rw [generateRandomRequestWith_accept lb g A b t ha hb hblk (by rw [hcount, hmax]; omega)]
      refine ⟨⟨hmax, ?_, ?_⟩, ?_, ?_, ?_⟩
      · show mapFind (mapSet lb.ip_request_count A (lb.requestCount A + 1)) A = _
        rw [mapFind_mapSet_same, hcount]
        have e2 : min (n + 1) 51 = n + 1 := by omega
        simp [e2]
      · show A ∈ lb.blocked_ips ↔ _
        constructor
        · intro h; exact absurd h hnin
        · intro h; omega
      · intro _; rfl
      · intro h; omega
      · simp [hblk, h51]

theorem countedTimes_admitAll (A : String) (hlen : 7 ≤ A.length)
    (hstat : beginsWithStaticRange A = false) (cs : List (String × String × Int)) :
    ∀ (n : Nat) (st : LoadBalancer × RandStream),
      (∀ c ∈ cs, c.1 = A ∧ c.2.1 ≠ "") → CountedTimes A n st.1 →
      CountedTimes A (n + cs.length) (admitAll cs st).1 := by
  induction cs with
  | nil => intro n st _ h; simpa [admitAll] using h
  | cons c cs ih =>
    intro n st hcs hP
    obtain ⟨a, b, t⟩ := c
    have hc := hcs (a, b, t) (List.mem_cons_self _ _)
    obtain ⟨hca, hcb⟩ := hc
    simp only at hca hcb
    subst hca
    have hstep := (countedTimes_step a hlen hstat n st.1 hP st.2 b t
      (length_ne_zero_of_ne_empty b hcb)).1
    have := ih (n + 1) (st.1.generateRandomRequestWith st.2 a b t).2
      (fun c hc => hcs c (List.mem_cons_of_mem _ hc)) hstep
    simp only [admitAll, List.length_cons]
    have e : n + (cs.length + 1) = n + 1 + cs.length := by omega
    rw [e]
    exact this

end LoadBalancer

/-- C2. Rate-limit threshold.  Start from a state in which the source address
`A` (at least 7 characters, as every dotted quad is, and not beginning with
`10.`, `127.` or `192.168.`) has no recorded count and is not blocked, with
`max_requests_per_ip = 50`.  Run admission checks for `A` (any non-empty
destinations, any arrival times, any random draws) and look at the check that
follows `n` of them: for `n < 50` (checks 1 to 50) it is accepted; for `n = 50`
(the 51st) it is rejected, `A` was not blocked before it and is in `blocked_ips`
after it; for `n = 51` (the 52nd) it is rejected by `isIPBlocked` because `A` is
in `blocked_ips`, and the count of `A` stays 51. -/
theorem rate_limit_threshold (lb : LoadBalancer) (g : RandStream) (A : String)
    (hlen : 7 ≤ A.length) (hstat : beginsWithStaticRange A = false)
    (hcnt : mapFind lb.ip_request_count A = none) (hblk : A ∉ lb.blocked_ips)
    (hmax : lb.max_requests_per_ip = 50)
    (cs : List (String × String × Int)) (hcs : ∀ c ∈ cs, c.1 = A ∧ c.2.1 ≠ "")
    (b : String) (t : Int) (hb : b ≠ "") :
    (cs.length < 50 →
      (((LoadBalancer.admitAll cs (lb, g)).1.generateRandomRequestWith
          (LoadBalancer.admitAll cs (lb, g)).2 A b t).1).isSome = true) ∧
    (cs.length = 50 →
      A ∉ (LoadBalancer.admitAll cs (lb, g)).1.blocked_ips ∧
      ((LoadBalancer.admitAll cs (lb, g)).1.generateRandomRequestWith
          (LoadBalancer.admitAll cs (lb, g)).2 A b t).1 = none ∧
      A ∈ ((LoadBalancer.admitAll cs (lb, g)).1.generateRandomRequestWith
          (LoadBalancer.admitAll cs (lb, g)).2 A b t).2.1.blocked_ips) ∧
    (cs.length = 51 →
      A ∈ (LoadBalancer.admitAll cs (lb, g)).1.blocked_ips ∧
      (LoadBalancer.admitAll cs (lb, g)).1.isIPBlocked A = true ∧
      ((LoadBalancer.admitAll cs (lb, g)).1.generateRandomRequestWith
          (LoadBalancer.admitAll cs (lb, g)).2 A b t).1 = none ∧
      mapFind (LoadBalancer.admitAll cs (lb, g)).1.ip_request_count A = some 51 ∧
      mapFind ((LoadBalancer.admitAll cs (lb, g)).1.generateRandomRequestWith
          (LoadBalancer.admitAll cs (lb, g)).2 A b t).2.1.ip_request_count A = some 51) := by
  have h0 : LoadBalancer.CountedTimes A 0 lb := ⟨hmax, by simpa using hcnt, by simpa using hblk⟩
  have hP := LoadBalancer.countedTimes_admitAll A hlen hstat cs 0 (lb, g) hcs h0
  rw [Nat.zero_add] at hP
  have hstep := LoadBalancer.countedTimes_step A hlen hstat cs.length _ hP
    (LoadBalancer.admitAll cs (lb, g)).2 b t (length_ne_zero_of_ne_empty b hb)
  obtain ⟨hP1, hacc, hrej, hisb⟩ := hstep
  refine ⟨hacc, ?_, ?_⟩
  · intro h
    refine ⟨?_, hrej (by omega), ?_⟩
    · intro hin; have := hP.2.2.mp hin; omega
    · exact hP1.2.2.mpr (by omega)
  · intro h
    refine ⟨hP.2.2.mpr (by omega), ?_, hrej (by omega), ?_, ?_⟩
    · rw [hisb]; simp [h]
    · have := hP.2.1; rw [h] at this; simpa using this
    · have := hP1.2.1; rw [h] at this; simpa using this

/-- Witness for C2: `A = 8.8.8.8` on a fresh load balancer, after 51 checks: the
52nd check is rejected by `isIPBlocked` and the count stays 51. -/
theorem rate_limit_threshold_witness :
    "8.8.8.8" ∈ (LoadBalancer.admitAll (List.replicate 51 ("8.8.8.8", "1.1.1.1", 0))
        (LoadBalancer.fresh, zeroStream)).1.blocked_ips ∧
    (LoadBalancer.admitAll (List.replicate 51 ("8.8.8.8", "1.1.1.1", 0))
        (LoadBalancer.fresh, zeroStream)).1.isIPBlocked "8.8.8.8" = true ∧
    ((LoadBalancer.admitAll (List.replicate 51 ("8.8.8.8", "1.1.1.1", 0))
        (LoadBalancer.fresh, zeroStream)).1.generateRandomRequestWith
      (LoadBalancer.admitAll (List.replicate 51 ("8.8.8.8", "1.1.1.1", 0))
        (LoadBalancer.fresh, zeroStream)).2 "8.8.8.8" "1.1.1.1" 0).1 = none ∧
    mapFind (LoadBalancer.admitAll (List.replicate 51 ("8.8.8.8", "1.1.1.1", 0))
        (LoadBalancer.fresh, zeroStream)).1.ip_request_count "8.8.8.8" = some 51 ∧
    mapFind ((LoadBalancer.admitAll (List.replicate 51 ("8.8.8.8", "1.1.1.1", 0))
        (LoadBalancer.fresh, zeroStream)).1.generateRandomRequestWith
      (LoadBalancer.admitAll (List.replicate 51 ("8.8.8.8", "1.1.1.1", 0))
        (LoadBalancer.fresh, zeroStream)).2 "8.8.8.8" "1.1.1.1" 0).2.1.ip_request_count
      "8.8.8.8" = some 51 :=
  (rate_limit_threshold LoadBalancer.fresh zeroStream "8.8.8.8" (by decide) (by decide)
    rfl (by simp [LoadBalancer.fresh]) rfl
    (List.replicate 51 ("8.8.8.8", "1.1.1.1", 0))
    (by intro c hc; rw [List.eq_of_mem_replicate hc]; decide)
    "1.1.1.1" 0 (by decide)).2.2 (by simp)

namespace LoadBalancer

theorem generateRandomRequest_eq (lb : LoadBalancer) (g : RandStream) (t : Int) :
    lb.generateRandomRequest g t =
      lb.generateRandomRequestWith (generateRandomIP (generateRandomIP g).2).2
        (generateRandomIP g).1 (generateRandomIP (generateRandomIP g).2).1 t := rfl

theorem admissionGrows_refl (lb : LoadBalancer) : AdmissionGrows lb lb :=
  ⟨rfl, fun _ h => h, fun _ c h => ⟨c, h, le_refl c⟩, le_refl _, fun h => h⟩

theorem admissionGrows_trans {lb1 lb2 lb3 : LoadBalancer}
    (h12 : AdmissionGrows lb1 lb2) (h23 : AdmissionGrows lb2 lb3) : AdmissionGrows lb1 lb3 := by
  obtain ⟨m1, b1, c1, r1, j1⟩ := h12
  obtain ⟨m2, b2, c2, r2, j2⟩ := h23
  refine ⟨m2.trans m1, fun a h => b2 a (b1 a h), ?_, le_trans r1 r2, fun h => j2 (j1 h)⟩
  intro a c h
  obtain ⟨x, hx, hcx⟩ := c1 a c h
  obtain ⟨y, hy, hxy⟩ := c2 a x hx
  exact ⟨y, hy, le_trans hcx hxy⟩

/-- Operations that leave the four admission fields alone. -/
theorem admissionGrows_of_eq {lb lb1 : LoadBalancer}
    (hm : lb1.max_requests_per_ip = lb.max_requests_per_ip)
    (hb : lb1.blocked_ips = lb.blocked_ips)
    (hc : lb1.ip_request_count = lb.ip_request_count)
    (hr : lb1.blocked_requests = lb.blocked_requests) : AdmissionGrows lb lb1 := by
  refine ⟨hm, fun a h => hb ▸ h, fun a c h => ⟨c, hc ▸ h, le_refl c⟩, le_of_eq hr.symm, ?_⟩
  intro hj a ha
  rw [hb] at ha
  rw [hc, hm]
  exact hj a ha

theorem requestCount_of_find {lb : LoadBalancer} {a : String} {c : Int}
    (h : mapFind lb.ip_request_count a = some c) : lb.requestCount a = c := by
  unfold requestCount; rw [h]; rfl

theorem requestCount_nonneg_step (lb : LoadBalancer) (a : String) (c : Int)
    (h : mapFind lb.ip_request_count a = some c) : c ≤ lb.requestCount a + 1 := by
  rw [requestCount_of_find h]; omega

/-- Counting one more request for `a` grows the admission state, whether or not
`a` is then blocked. -/
theorem admissionGrows_count (lb lb1 : LoadBalancer) (a : String)
    (hm : lb1.max_requests_per_ip = lb.max_requests_per_ip)
    (hc : lb1.ip_request_count = mapSet lb.ip_request_count a (lb.requestCount a + 1))
    (hr : lb.blocked_requests ≤ lb1.blocked_requests)
    (hb : lb1.blocked_ips = lb.blocked_ips ∨
      (lb1.blocked_ips = setInsert lb.blocked_ips a ∧
        lb.max_requests_per_ip < lb.requestCount a + 1)) :
    AdmissionGrows lb lb1 := by
  have hsub : ∀ x, x ∈ lb.blocked_ips → x ∈ lb1.blocked_ips := by
    intro x hx
    rcases hb with hb | ⟨hb, _⟩
    · rw [hb]; exact hx
    · rw [hb, mem_setInsert]; exact Or.inl hx
  have hcnt : ∀ x c, mapFind lb.ip_request_count x = some c →
      ∃ c1, mapFind lb1.ip_request_count x = some c1 ∧ c ≤ c1 := by
    intro x c hx
    rw [hc]
    by_cases hxa : x = a
    · subst hxa
      exact ⟨_, mapFind_mapSet_same _ _ _, requestCount_nonneg_step lb x c hx⟩
    · rw [mapFind_mapSet_other _ _ _ _ hxa]
      exact ⟨c, hx, le_refl c⟩
  refine ⟨hm, hsub, hcnt, hr, ?_⟩
  intro hj x hx
  rw [hm]
  have hold : x ∈ lb.blocked_ips ∨ (x = a ∧ lb.max_requests_per_ip < lb.requestCount a + 1) := by
    rcases hb with hb | ⟨hb, hov⟩
    · rw [hb] at hx; exact Or.inl hx
    · rw [hb, mem_setInsert] at hx
      rcases hx with hx | hx
      · exact Or.inl hx
      · exact Or.inr ⟨hx, hov⟩
  rcases hold with hx0 | ⟨hxa, hov⟩
  · obtain ⟨c, hfc, hlt⟩ := hj x hx0
    obtain ⟨c1, hf1, hle⟩ := hcnt x c hfc
    exact ⟨c1, hf1, lt_of_lt_of_le hlt hle⟩
  · subst hxa
    refine ⟨lb.requestCount x + 1, ?_, hov⟩
    rw [hc]
    exact mapFind_mapSet_same _ _ _

/-- Every admission decision grows the admission state. -/
theorem admissionGrows_generateRandomRequestWith (lb : LoadBalancer) (g : RandStream)
    (a b : String) (t : Int) :
    AdmissionGrows lb (lb.generateRandomRequestWith g a b t).2.1 := by
  by_cases he : a.length = 0 ∨ b.length = 0
  · rw [generateRandomRequestWith_empty lb g a b t he]
    exact admissionGrows_refl lb
  · have ha : a.length ≠ 0 := fun h => he (Or.inl h)
    have hb : b.length ≠ 0 := fun h => he (Or.inr h)
    cases hblk : lb.isIPBlocked a with
    | true =>
      rw [generateRandomRequestWith_blocked lb g a b t ha hb hblk]
      refine ⟨rfl, fun _ h => h, fun _ c h => ⟨c, h, le_refl c⟩, ?_, fun h => h⟩
      show lb.blocked_requests ≤ lb.blocked_requests + 1
      omega
    | false =>
      by_cases hc : lb.max_requests_per_ip < lb.requestCount a + 1
      · rw [generateRandomRequestWith_over lb g a b t ha hb hblk hc]
        refine admissionGrows_count lb _ a rfl rfl ?_ (Or.inr ⟨rfl, hc⟩)
        show lb.blocked_requests ≤ lb.blocked_requests + 1
        omega
      · rw [generateRandomRequestWith_accept lb g a b t ha hb hblk (by omega)]
        exact admissionGrows_count lb _ a rfl rfl (le_refl _) (Or.inl rfl)

/-- In a state where blocked addresses are justified by their counts, a
candidate whose source is blocked is rejected. -/
theorem rejects_of_blocked (lb : LoadBalancer) (hj : lb.BlockedJustified) (A : String)
    (hA : A ∈ lb.blocked_ips) (g : RandStream) (b : String) (t : Int) :
    (lb.generateRandomRequestWith g A b t).1 = none := by
  by_cases he : A.length = 0 ∨ b.length = 0
  · rw [generateRandomRequestWith_empty lb g A b t he]
  · have ha : A.length ≠ 0 := fun h => he (Or.inl h)
    have hb : b.length ≠ 0 := fun h => he (Or.inr h)
    cases hblk : lb.isIPBlocked A with
    | true => rw [generateRandomRequestWith_blocked lb g A b t ha hb hblk]
    | false =>
      obtain ⟨c, hfc, hlt⟩ := hj A hA
      have hc : lb.max_requests_per_ip < lb.requestCount A + 1 := by
        rw [requestCount_of_find hfc]; omega
      rw [generateRandomRequestWith_over lb g A b t ha hb hblk hc]

end LoadBalancer

/-! ## Servers inside the load balancer -/

theorem WebServer.consistent_new : WebServer.new.Consistent :=
  ⟨fun h => by simp [WebServer.new] at h, fun _ => rfl⟩

namespace LoadBalancer

theorem serverStep_consistent (s : WebServer) (hs : s.Consistent) :
    ∃ s1, serverStep s = some s1 ∧ s1.Consistent := by
  obtain ⟨hbusy, hidle⟩ := hs
  by_cases hc : s.busy = true ∧ 0 < s.time_remaining
  · obtain ⟨hb, hp⟩ := hc
    by_cases h1 : s.time_remaining = 1
    · cases hr : s.current_request with
      | none => exact absurd hr (hbusy hb)
      | some r =>
        have e := WebServer.processCycle_busy_last s hb h1
        rw [hr] at e
        refine ⟨⟨false, 0, none⟩, ?_, ⟨fun h => by simp at h, fun _ => rfl⟩⟩
        simp [serverStep, e, WebServer.isRequestDone, WebServer.finishRequest]
    · have e := WebServer.processCycle_busy_pos s hb hp (by omega)
      refine ⟨{ s with time_remaining := s.time_remaining - 1 }, ?_, ⟨hbusy, hidle⟩⟩
      simp [serverStep, e, WebServer.isRequestDone, hb]
  · have e := WebServer.processCycle_skip s hc
    refine ⟨s, ?_, ⟨hbusy, hidle⟩⟩
    cases hb : s.busy with
    | true => simp [serverStep, e, WebServer.isRequestDone, hb]
    | false => simp [serverStep, e, WebServer.isRequestDone, hb, hidle hb]

theorem processServers_consistent (ss : List WebServer) (h : ∀ s ∈ ss, s.Consistent) :
    ∃ ss1, processServers ss = some ss1 ∧ ss1.length = ss.length ∧
      ∀ s ∈ ss1, s.Consistent := by
  induction ss with
  | nil => exact ⟨[], rfl, rfl, fun s hs => by simp at hs⟩
  | cons s rest ih =>
    obtain ⟨s1, e1, c1⟩ := serverStep_consistent s (h s (List.mem_cons_self _ _))
    obtain ⟨rest1, e2, l2, c2⟩ := ih (fun x hx => h x (List.mem_cons_of_mem _ hx))
    refine ⟨s1 :: rest1, ?_, ?_, ?_⟩
    · simp [processServers, e1, e2]
    · simp [l2]
    · intro x hx
      rcases List.mem_cons.mp hx with hx | hx
      · subst hx; exact c1
      · exact c2 x hx

theorem assignRequest_consistent (s : WebServer) (req : Request) (t : Int)
    (hs : s.Consistent) : (s.assignRequest req t).1.Consistent := by
  unfold WebServer.assignRequest
  cases hb : s.busy with
  | true => simpa [hb] using hs
  | false =>
    simp only [hb, Bool.not_false, if_true]
    exact ⟨fun _ => by simp, fun h => by simp at h⟩

theorem assignLoop_cons_take (t : Int) (s : WebServer) (rest : List WebServer)
    (req : Request) (q : List Request) (hb : s.isBusy = false) :
    assignLoop t (s :: rest) (req :: q) =
      ((s.assignRequest req t).1 :: (assignLoop t rest q).1, (assignLoop t rest q).2) := by
  simp [assignLoop, hb]

theorem assignLoop_cons_skip (t : Int) (s : WebServer) (rest : List WebServer)
    (q : List Request) (h : s.isBusy = true ∨ q = []) :
    assignLoop t (s :: rest) q = (s :: (assignLoop t rest q).1, (assignLoop t rest q).2) := by
  rcases h with h | h
  · simp [assignLoop, h]
  · subst h
    simp [assignLoop]

/-- The two ways one iteration of the dispatch loop can go. -/
theorem assignLoop_cons_cases (t : Int) (s : WebServer) (rest : List WebServer)
    (q : List Request) :
    (s.isBusy = false ∧ ∃ req q1, q = req :: q1 ∧
      assignLoop t (s :: rest) q =
        ((s.assignRequest req t).1 :: (assignLoop t rest q1).1, (assignLoop t rest q1).2)) ∨
    ((s.isBusy = true ∨ q = []) ∧
      assignLoop t (s :: rest) q = (s :: (assignLoop t rest q).1, (assignLoop t rest q).2)) := by
  cases hb : s.isBusy with
  | true => exact Or.inr ⟨Or.inl rfl, assignLoop_cons_skip t s rest q (Or.inl hb)⟩
  | false =>
    cases q with
    | nil => exact Or.inr ⟨Or.inr rfl, assignLoop_cons_skip t s rest [] (Or.inr rfl)⟩
    | cons req q1 =>
      exact Or.inl ⟨rfl, req, q1, rfl, assignLoop_cons_take t s rest req q1 hb⟩

theorem assignLoop_consistent (t : Int) (ss : List WebServer) :
    ∀ q : List Request, (∀ s ∈ ss, s.Consistent) →
      (assignLoop t ss q).1.length = ss.length ∧ ∀ s ∈ (assignLoop t ss q).1, s.Consistent := by
  induction ss with
  | nil => intro q _; simp [assignLoop]
  | cons s rest ih =>
    intro q h
    have hs := h s (List.mem_cons_self _ _)
    have hrest : ∀ x ∈ rest, x.Consistent := fun x hx => h x (List.mem_cons_of_mem _ hx)
    rcases assignLoop_cons_cases t s rest q with ⟨_, req, q1, _, e⟩ | ⟨_, e⟩
    · rw [e]
      obtain ⟨l, c⟩ := ih q1 hrest
      refine ⟨by simp [l], ?_⟩
      intro x hx
      rcases List.mem_cons.mp hx with hx | hx
      · subst hx; exact assignRequest_consistent s req t hs
      · exact c x hx
    · rw [e]
      obtain ⟨l, c⟩ := ih q hrest
      refine ⟨by simp [l], ?_⟩
      intro x hx
      rcases List.mem_cons.mp hx with hx | hx
      · subst hx; exact hs
      · exact c x hx

end LoadBalancer

/-! ## Scaling -/

namespace LoadBalancer

theorem scaleServers_up (lb : LoadBalancer) (h : lb.Overloaded) :
    lb.scaleServers = some { lb with servers := lb.servers ++ [WebServer.new] } := by
  unfold scaleServers
  rw [if_pos (by simpa [Overloaded] using h)]

theorem scaleServers_down (lb : LoadBalancer) (h1 : ¬ lb.Overloaded) (h2 : lb.Underloaded)
    (hne : lb.servers ≠ []) :
    lb.scaleServers = some { lb with servers := lb.servers.dropLast } := by
  unfold scaleServers
  rw [if_neg (by simpa [Overloaded] using h1), if_pos (by simpa [Underloaded, and_assoc] using h2)]
  cases hs : lb.servers with
  | nil => exact absurd hs hne
  | cons s rest => rfl

theorem scaleServers_undefined (lb : LoadBalancer) (h1 : ¬ lb.Overloaded) (h2 : lb.Underloaded)
    (he : lb.servers = []) : lb.scaleServers = none := by
  unfold scaleServers
  rw [if_neg (by simpa [Overloaded] using h1), if_pos (by simpa [Underloaded, and_assoc] using h2)]
  rw [he]

theorem scaleServers_same (lb : LoadBalancer) (h1 : ¬ lb.Overloaded) (h2 : ¬ lb.Underloaded) :
    lb.scaleServers = some lb := by
  unfold scaleServers
  rw [if_neg (by simpa [Overloaded] using h1), if_neg (by simpa [Underloaded, and_assoc] using h2)]

/-- With a non-negative `min_servers` the scale-down guard implies a non-empty
pool. -/
theorem servers_ne_nil_of_underloaded (lb : LoadBalancer)
    (h : 0 ≤ lb.min_servers ∨ lb.servers ≠ []) (h2 : lb.Underloaded) : lb.servers ≠ [] := by
  rcases h with h | h
  · intro he
    obtain ⟨_, hgt, _⟩ := h2
    rw [he] at hgt
    simp at hgt
    omega
  · exact h

end LoadBalancer

/-- C7. Scaling policy.  In every state in which `scaleServers` is defined (all
states except an empty pool together with a negative `min_servers`, where the
scale-down branch would take `back()` of an empty vector), with
load = queue depth, active = number of servers, busy = number of busy servers,
`scaleServers` does exactly one of:
(1) if `load > 2 * active` and `active < max_servers`, it appends one idle server
with no request;
(2) otherwise, if `load <= 5`, `active > min_servers` and `busy = 0`, it removes
exactly the last server;
(3) otherwise it changes nothing.
In each case only `servers` changes: the queue is untouched, the pool size moves
by at most one and the remaining servers are the old ones in the old order. -/
theorem scaling_policy (lb : LoadBalancer)
    (hdef : 0 ≤ lb.min_servers ∨ lb.servers ≠ []) :
    (lb.Overloaded →
      lb.scaleServers = some { lb with servers := lb.servers ++ [WebServer.new] } ∧
      WebServer.new.isBusy = false ∧ WebServer.new.current_request = none) ∧
    (¬ lb.Overloaded → lb.Underloaded →
      ∃ init last, lb.servers = init ++ [last] ∧
        lb.scaleServers = some { lb with servers := init }) ∧
    (¬ lb.Overloaded → ¬ lb.Underloaded → lb.scaleServers = some lb) ∧
    (∃ lb1, lb.scaleServers = some lb1 ∧
      lb1.request_queue = lb.request_queue ∧
      (lb1.servers = lb.servers ∨ lb1.servers.length = lb.servers.length + 1 ∨
        lb1.servers.length + 1 = lb.servers.length) ∧
      (lb1.servers <+: lb.servers ∨ lb.servers <+: lb1.servers)) := by
  have hup := LoadBalancer.scaleServers_up lb
  have hdown : ¬ lb.Overloaded → lb.Underloaded →
      ∃ init last, lb.servers = init ++ [last] ∧
        lb.scaleServers = some { lb with servers := init } := by
    intro h1 h2
    have hne := LoadBalancer.servers_ne_nil_of_underloaded lb hdef h2
    refine ⟨lb.servers.dropLast, lb.servers.getLast hne, ?_, ?_⟩
    · exact (List.dropLast_append_getLast hne).symm
    · exact LoadBalancer.scaleServers_down lb h1 h2 hne
  refine ⟨fun h => ⟨hup h, rfl, rfl⟩, hdown, LoadBalancer.scaleServers_same lb, ?_⟩
  by_cases h1 : lb.Overloaded
  · refine ⟨_, hup h1, rfl, Or.inr (Or.inl ?_), Or.inr ?_⟩
    · simp
    · exact List.prefix_append _ _
  · by_cases h2 : lb.Underloaded
    · obtain ⟨init, last, e, hs⟩ := hdown h1 h2
      refine ⟨_, hs, rfl, Or.inr (Or.inr ?_), Or.inl ?_⟩
      · simp [e]
      · show init <+: lb.servers
        rw [e]
        exact List.prefix_append _ _
    · exact ⟨lb, LoadBalancer.scaleServers_same lb h1 h2, rfl, Or.inl rfl, Or.inl (List.prefix_refl _)⟩

/-- Witness for C7: three idle servers, seven queued requests, bounds 3 and 6:
one server is added; then with four queued requests and no busy server the last
server is removed again. -/
theorem scaling_policy_witness :
    (LoadBalancer.poolOfThree.scaleServers =
      some { LoadBalancer.poolOfThree with
             servers := LoadBalancer.poolOfThree.servers ++ [WebServer.new] }) ∧
    (∃ init last,
      ({ LoadBalancer.poolOfThree with
          servers := LoadBalancer.poolOfThree.servers ++ [WebServer.new],
          request_queue := LoadBalancer.poolOfThree.request_queue.drop 3 } : LoadBalancer).servers
        = init ++ [last] ∧
      ({ LoadBalancer.poolOfThree with
          servers := LoadBalancer.poolOfThree.servers ++ [WebServer.new],
          request_queue := LoadBalancer.poolOfThree.request_queue.drop 3 } : LoadBalancer).scaleServers
        = some { LoadBalancer.poolOfThree with
                  servers := init,
                  request_queue := LoadBalancer.poolOfThree.request_queue.drop 3 }) :=
  ⟨((scaling_policy LoadBalancer.poolOfThree (Or.inl (by decide))).1 (by decide)).1,
   (scaling_policy
      { LoadBalancer.poolOfThree with
          servers := LoadBalancer.poolOfThree.servers ++ [WebServer.new],
          request_queue := LoadBalancer.poolOfThree.request_queue.drop 3 }
      (Or.inl (by decide))).2.1 (by decide) (by decide)⟩

/-! ## One cycle of the load balancer -/

namespace LoadBalancer

theorem samePool_refl (lb : LoadBalancer) : SamePool lb lb := ⟨rfl, rfl, rfl⟩

theorem samePool_trans {lb1 lb2 lb3 : LoadBalancer} (h12 : SamePool lb1 lb2)
    (h23 : SamePool lb2 lb3) : SamePool lb1 lb3 :=
  ⟨h23.1.trans h12.1, h23.2.1.trans h12.2.1, h23.2.2.trans h12.2.2⟩

/-- An admission decision touches neither the pool, nor the queue, nor the
clock. -/
theorem generateRandomRequestWith_frame (lb : LoadBalancer) (g : RandStream)
    (a b : String) (t : Int) :
    SamePool lb (lb.generateRandomRequestWith g a b t).2.1 ∧
    (lb.generateRandomRequestWith g a b t).2.1.request_queue = lb.request_queue ∧
    (lb.generateRandomRequestWith g a b t).2.1.current_time = lb.current_time := by
  by_cases he : a.length = 0 ∨ b.length = 0
  · rw [generateRandomRequestWith_empty lb g a b t he]
    exact ⟨samePool_refl lb, rfl, rfl⟩
  · have ha : a.length ≠ 0 := fun h => he (Or.inl h)
    have hb : b.length ≠ 0 := fun h => he (Or.inr h)
    cases hblk : lb.isIPBlocked a with
    | true =>
      rw [generateRandomRequestWith_blocked lb g a b t ha hb hblk]
      exact ⟨⟨rfl, rfl, rfl⟩, rfl, rfl⟩
    | false =>
      by_cases hc : lb.max_requests_per_ip < lb.requestCount a + 1
      · rw [generateRandomRequestWith_over lb g a b t ha hb hblk hc]
        exact ⟨⟨rfl, rfl, rfl⟩, rfl, rfl⟩
      · rw [generateRandomRequestWith_accept lb g a b t ha hb hblk (by omega)]
        exact ⟨⟨rfl, rfl, rfl⟩, rfl, rfl⟩

/-- Pushing the generated request, if any, leaves the pool and the admission
state alone. -/
theorem pushIfAny_frame (res : Option Request × LoadBalancer × RandStream) :
    SamePool res.2.1 (pushIfAny res).1 ∧ AdmissionGrows res.2.1 (pushIfAny res).1 := by
  obtain ⟨r, lb1, g1⟩ := res
  cases r with
  | none => exact ⟨samePool_refl _, admissionGrows_refl _⟩
  | some req => exact ⟨⟨rfl, rfl, rfl⟩, admissionGrows_of_eq rfl rfl rfl rfl⟩

/-- `generateRandomRequest` followed by the push of its result. -/
theorem generate_and_push (lb : LoadBalancer) (g : RandStream) (t : Int) :
    SamePool lb (pushIfAny (lb.generateRandomRequest g t)).1 ∧
    AdmissionGrows lb (pushIfAny (lb.generateRandomRequest g t)).1 := by
  have hp := (generateRandomRequestWith_frame lb (generateRandomIP (generateRandomIP g).2).2
    (generateRandomIP g).1 (generateRandomIP (generateRandomIP g).2).1 t).1
  have ha := admissionGrows_generateRandomRequestWith lb
    (generateRandomIP (generateRandomIP g).2).2
    (generateRandomIP g).1 (generateRandomIP (generateRandomIP g).2).1 t
  rw [← generateRandomRequest_eq] at hp ha
  obtain ⟨p2, a2⟩ := pushIfAny_frame (lb.generateRandomRequest g t)
  exact ⟨samePool_trans hp p2, admissionGrows_trans ha a2⟩

theorem addRequest_frame (lb : LoadBalancer) (g : RandStream) :
    SamePool lb (lb.addRequest g).1 ∧ AdmissionGrows lb (lb.addRequest g).1 := by
  unfold addRequest
  simp only []
  split
  · exact generate_and_push lb _ _
  · exact ⟨samePool_refl lb, admissionGrows_refl lb⟩

theorem prefill_frame (n : Nat) :
    ∀ (lb : LoadBalancer) (g : RandStream),
      SamePool lb (prefill n lb g).1 ∧ AdmissionGrows lb (prefill n lb g).1 := by
  induction n with
  | zero => intro lb g; exact ⟨samePool_refl lb, admissionGrows_refl lb⟩
  | succ n ih =>
    intro lb g
    obtain ⟨p1, a1⟩ := generate_and_push lb g lb.current_time
    obtain ⟨p2, a2⟩ := ih (pushIfAny (lb.generateRandomRequest g lb.current_time)).1
      (pushIfAny (lb.generateRandomRequest g lb.current_time)).2
    exact ⟨samePool_trans p1 p2, admissionGrows_trans a1 a2⟩

/-- What `beforeScale` returns, spelled out. -/
theorem beforeScale_eq_some (lb lb4 : LoadBalancer) (g g4 : RandStream)
    (h : lb.beforeScale g = some (lb4, g4)) :
    ∃ ss,
      processServers
        (({ lb with current_time := lb.current_time + 1 } : LoadBalancer).addRequest g).1.assignRequests.servers
        = some ss ∧
      lb4 = { (({ lb with current_time := lb.current_time + 1 } : LoadBalancer).addRequest g).1.assignRequests
              with servers := ss } ∧
      g4 = (({ lb with current_time := lb.current_time + 1 } : LoadBalancer).addRequest g).2 := by
  unfold beforeScale at h
  simp only [] at h
  cases hp : processServers
      (({ lb with current_time := lb.current_time + 1 } : LoadBalancer).addRequest g).1.assignRequests.servers with
  | none => rw [hp] at h; exact absurd h (by simp)
  | some ss =>
    rw [hp] at h
    simp only [Option.some.injEq, Prod.mk.injEq] at h
    exact ⟨ss, rfl, h.1.symm, h.2.symm⟩

theorem processCycle_eq_some (lb lb5 : LoadBalancer) (g g5 : RandStream)
    (h : lb.processCycle g = some (lb5, g5)) :
    ∃ lb4, lb.beforeScale g = some (lb4, g5) ∧ lb4.scaleServers = some lb5 := by
  unfold processCycle at h
  cases hb : lb.beforeScale g with
  | none => rw [hb] at h; exact absurd h (by simp)
  | some p =>
    obtain ⟨lb4, g4⟩ := p
    rw [hb] at h
    simp only [] at h
    cases hs : lb4.scaleServers with
    | none => rw [hs] at h; exact absurd h (by simp)
    | some lb5a =>
      rw [hs] at h
      simp only [Option.some.injEq, Prod.mk.injEq] at h
      obtain ⟨h1, h2⟩ := h
      subst h1 h2
      exact ⟨lb4, rfl, hs⟩

/-- The result of `scaleServers` differs from its argument in `servers` only. -/
theorem scaleServers_eq_some (lb lb5 : LoadBalancer) (h : lb.scaleServers = some lb5) :
    lb5 = { lb with servers := lb5.servers } ∧
    (lb5.servers = lb.servers ++ [WebServer.new] ∧ lb.Overloaded ∨
     lb5.servers = lb.servers.dropLast ∧ lb.servers ≠ [] ∧ ¬ lb.Overloaded ∧ lb.Underloaded ∨
     lb5.servers = lb.servers ∧ ¬ lb.Overloaded ∧ ¬ lb.Underloaded) := by
  by_cases h1 : lb.Overloaded
  · rw [scaleServers_up lb h1] at h
    have e := (Option.some.inj h).symm
    subst e
    exact ⟨rfl, Or.inl ⟨rfl, h1⟩⟩
  · by_cases h2 : lb.Underloaded
    · by_cases hne : lb.servers = []
      · rw [scaleServers_undefined lb h1 h2 hne] at h
        exact absurd h (by simp)
      · rw [scaleServers_down lb h1 h2 hne] at h
        have e := (Option.some.inj h).symm
        subst e
        exact ⟨rfl, Or.inr (Or.inl ⟨rfl, hne, h1, h2⟩)⟩
    · rw [scaleServers_same lb h1 h2] at h
      have e := (Option.some.inj h).symm
      subst e
      exact ⟨rfl, Or.inr (Or.inr ⟨rfl, h1, h2⟩)⟩

end LoadBalancer

/-! ## Invariants of the load balancer -/

namespace LoadBalancer

theorem getBusyServers_eq_zero (lb : LoadBalancer) :
    lb.getBusyServers = 0 ↔ ∀ s ∈ lb.servers, s.isBusy = false := by
  unfold getBusyServers
  rw [Int.natCast_eq_zero, List.length_eq_zero, List.filter_eq_nil_iff]
  constructor
  · intro h s hs
    simpa using h s hs
  · intro h s hs
    simpa using h s hs

/-- From a pool of consistent servers the cycle reaches `scaleServers` without
fault, with a pool of the same size, still consistent, and the same bounds. -/
theorem beforeScale_defined (lb : LoadBalancer) (g : RandStream)
    (h : ∀ s ∈ lb.servers, s.Consistent) :
    ∃ lb4 g4, lb.beforeScale g = some (lb4, g4) ∧
      (∀ s ∈ lb4.servers, s.Consistent) ∧
      lb4.servers.length = lb.servers.length ∧
      lb4.min_servers = lb.min_servers ∧ lb4.max_servers = lb.max_servers := by
  obtain ⟨⟨ps, pmin, pmax⟩, _⟩ :=
    addRequest_frame ({ lb with current_time := lb.current_time + 1 } : LoadBalancer) g
  have hs0 : ∀ s ∈ (({ lb with current_time := lb.current_time + 1 } : LoadBalancer).addRequest g).1.servers,
      s.Consistent := by
    rw [ps]; exact h
  obtain ⟨la, ca⟩ := assignLoop_consistent
    (({ lb with current_time := lb.current_time + 1 } : LoadBalancer).addRequest g).1.current_time
    (({ lb with current_time := lb.current_time + 1 } : LoadBalancer).addRequest g).1.servers
    (({ lb with current_time := lb.current_time + 1 } : LoadBalancer).addRequest g).1.request_queue hs0
  obtain ⟨ss, hp, lp, cp⟩ := processServers_consistent _ ca
  refine ⟨{ (({ lb with current_time := lb.current_time + 1 } : LoadBalancer).addRequest g).1.assignRequests
            with servers := ss },
    (({ lb with current_time := lb.current_time + 1 } : LoadBalancer).addRequest g).2,
    ?_, cp, ?_, pmin, pmax⟩
  · unfold beforeScale
    simp only []
    have hp2 : processServers
        (({ lb with current_time := lb.current_time + 1 } : LoadBalancer).addRequest g).1.assignRequests.servers
        = some ss := hp
    rw [hp2]
  · show ss.length = lb.servers.length
    rw [lp, la, ps]

/-- Whatever `beforeScale` returns has grown admission state. -/
theorem beforeScale_admission (lb lb4 : LoadBalancer) (g g4 : RandStream)
    (h : lb.beforeScale g = some (lb4, g4)) : AdmissionGrows lb lb4 := by
  obtain ⟨ss, _, e, _⟩ := beforeScale_eq_some lb lb4 g g4 h
  obtain ⟨_, ha⟩ :=
    addRequest_frame ({ lb with current_time := lb.current_time + 1 } : LoadBalancer) g
  have h1 : AdmissionGrows lb ({ lb with current_time := lb.current_time + 1 } : LoadBalancer) :=
    admissionGrows_of_eq rfl rfl rfl rfl
  have h3 : AdmissionGrows
      (({ lb with current_time := lb.current_time + 1 } : LoadBalancer).addRequest g).1 lb4 := by
    rw [e]
    exact admissionGrows_of_eq rfl rfl rfl rfl
  exact admissionGrows_trans (admissionGrows_trans h1 ha) h3

theorem processCycle_admission (lb lb5 : LoadBalancer) (g g5 : RandStream)
    (h : lb.processCycle g = some (lb5, g5)) : AdmissionGrows lb lb5 := by
  obtain ⟨lb4, hb, hs⟩ := processCycle_eq_some lb lb5 g g5 h
  have h1 := beforeScale_admission lb lb4 g g5 hb
  obtain ⟨e, _⟩ := scaleServers_eq_some lb4 lb5 hs
  have h2 : AdmissionGrows lb4 lb5 := by
    rw [e]
    exact admissionGrows_of_eq rfl rfl rfl rfl
  exact admissionGrows_trans h1 h2

/-- Scaling a consistent pool with a non-negative `min_servers` is defined, keeps
the pool consistent and keeps it within bounds it was already within. -/
theorem scaleServers_defined (lb : LoadBalancer) (h0 : 0 ≤ lb.min_servers)
    (h : ∀ s ∈ lb.servers, s.Consistent) :
    ∃ lb5, lb.scaleServers = some lb5 ∧
      (∀ s ∈ lb5.servers, s.Consistent) ∧
      lb5.min_servers = lb.min_servers ∧ lb5.max_servers = lb.max_servers ∧
      (lb.min_servers ≤ (lb.servers.length : Int) → (lb.servers.length : Int) ≤ lb.max_servers →
        lb5.min_servers ≤ (lb5.servers.length : Int) ∧
        (lb5.servers.length : Int) ≤ lb5.max_servers) := by
  by_cases h1 : lb.Overloaded
  · refine ⟨_, scaleServers_up lb h1, ?_, rfl, rfl, ?_⟩
    · intro s hs
      rcases List.mem_append.mp hs with hs | hs
      · exact h s hs
      · rw [List.mem_singleton.mp hs]; exact WebServer.consistent_new
    · intro hlo _
      obtain ⟨_, hlt⟩ := h1
      show lb.min_servers ≤ ((lb.servers ++ [WebServer.new]).length : Int) ∧
        ((lb.servers ++ [WebServer.new]).length : Int) ≤ lb.max_servers
      rw [List.length_append, List.length_singleton]
      push_cast
      omega
  · by_cases h2 : lb.Underloaded
    · have hne := servers_ne_nil_of_underloaded lb (Or.inl h0) h2
      refine ⟨_, scaleServers_down lb h1 h2 hne, ?_, rfl, rfl, ?_⟩
      · intro s hs
        exact h s (List.dropLast_subset _ hs)
      · intro _ hhi
        obtain ⟨_, hgt, _⟩ := h2
        show lb.min_servers ≤ ((lb.servers.dropLast).length : Int) ∧
          ((lb.servers.dropLast).length : Int) ≤ lb.max_servers
        rw [List.length_dropLast]
        have hpos : 0 < lb.servers.length := List.length_pos.mpr hne
        omega
    · exact ⟨lb, scaleServers_same lb h1 h2, h, rfl, rfl, fun a b => ⟨a, b⟩⟩

/-- One `processCycle` from a consistent pool with non-negative `min_servers`
returns normally and preserves consistency, the bounds fields and the bounds. -/
theorem processCycle_defined (lb : LoadBalancer) (g : RandStream) (h0 : 0 ≤ lb.min_servers)
    (h : ∀ s ∈ lb.servers, s.Consistent) :
    ∃ lb5 g5, lb.processCycle g = some (lb5, g5) ∧
      (∀ s ∈ lb5.servers, s.Consistent) ∧
      lb5.min_servers = lb.min_servers ∧ lb5.max_servers = lb.max_servers ∧
      (lb.min_servers ≤ (lb.servers.length : Int) → (lb.servers.length : Int) ≤ lb.max_servers →
        lb5.min_servers ≤ (lb5.servers.length : Int) ∧
        (lb5.servers.length : Int) ≤ lb5.max_servers) := by
  obtain ⟨lb4, g4, hb, c4, l4, min4, max4⟩ := beforeScale_defined lb g h
  obtain ⟨lb5, hs, c5, min5, max5, b5⟩ := scaleServers_defined lb4 (by rw [min4]; exact h0) c4
  refine ⟨lb5, g4, ?_, c5, min5.trans min4, max5.trans max4, ?_⟩
  · unfold processCycle
    rw [hb]
    simp only []
    rw [hs]
  · intro hlo hhi
    exact b5 (by rw [min4, l4]; exact hlo) (by rw [max4, l4]; exact hhi)

/-- The constructor: pool, bounds fields and admission state. -/
theorem new_spec (g : RandStream) (i m : Int) :
    (new g i m).1.servers = List.replicate i.toNat WebServer.new ∧
    (new g i m).1.min_servers = i ∧ (new g i m).1.max_servers = m ∧
    (new g i m).1.BlockedJustified := by
  obtain ⟨⟨ps, pmin, pmax⟩, _, _, _, _, hj⟩ :=
    prefill_frame ((init i m).min_servers * 100).toNat (init i m) g
  have e1 : (init i m).servers = List.replicate i.toNat WebServer.new := rfl
  have e2 : (init i m).min_servers = i := rfl
  have e3 : (init i m).max_servers = m := rfl
  have e4 : (init i m).BlockedJustified := by
    intro a ha
    simp [init] at ha
  exact ⟨ps.trans e1, pmin.trans e2, pmax.trans e3, hj e4⟩

/-- Invariants of every reachable state. -/
theorem reachable_invariants (i m : Int) (lb : LoadBalancer) (hr : ReachableFrom i m lb) :
    (∀ s ∈ lb.servers, s.Consistent) ∧ lb.min_servers = i ∧ lb.max_servers = m ∧
    lb.BlockedJustified ∧
    (0 ≤ i → i ≤ m → i ≤ (lb.servers.length : Int) ∧ (lb.servers.length : Int) ≤ m) := by
  induction hr with
  | ctor g =>
    obtain ⟨es, emin, emax, ej⟩ := new_spec g i m
    refine ⟨?_, emin, emax, ej, ?_⟩
    · intro s hs
      rw [es] at hs
      rw [List.eq_of_mem_replicate hs]
      exact WebServer.consistent_new
    · intro h0 h1
      rw [es, List.length_replicate, Int.toNat_of_nonneg h0]
      exact ⟨le_refl i, h1⟩
  | cycle lb lb2 g g2 _ hstep ih =>
    obtain ⟨hc, hmin, hmax, hj, hb⟩ := ih
    have hadm := processCycle_admission lb lb2 g g2 hstep
    obtain ⟨lb4, hbs, hsc⟩ := processCycle_eq_some lb lb2 g g2 hstep
    obtain ⟨lb4a, g4a, hbs2, c4, l4, min4, max4⟩ := beforeScale_defined lb g hc
    rw [hbs] at hbs2
    simp only [Option.some.injEq, Prod.mk.injEq] at hbs2
    obtain ⟨e4, _⟩ := hbs2
    subst e4
    obtain ⟨e5, hcase⟩ := scaleServers_eq_some lb4 lb2 hsc
    have hmin2 : lb2.min_servers = i := by rw [e5]; exact min4.trans hmin
    have hmax2 : lb2.max_servers = m := by rw [e5]; exact max4.trans hmax
    refine ⟨?_, hmin2, hmax2, hadm.2.2.2.2 hj, ?_⟩
    · intro s hs
      rcases hcase with ⟨e, _⟩ | ⟨e, _⟩ | ⟨e, _⟩
      · rw [e] at hs
        rcases List.mem_append.mp hs with hs | hs
        · exact c4 s hs
        · rw [List.mem_singleton.mp hs]; exact WebServer.consistent_new
      · rw [e] at hs
        exact c4 s (List.dropLast_subset _ hs)
      · rw [e] at hs
        exact c4 s hs
    · intro h0 h1
      obtain ⟨blo, bhi⟩ := hb h0 h1
      obtain ⟨lb5, hs5, _, min5, max5, b5⟩ :=
        scaleServers_defined lb4 (by rw [min4, hmin]; exact h0) c4
      rw [hsc] at hs5
      have e := Option.some.inj hs5
      subst e
      have := b5 (by rw [min4, l4, hmin]; exact blo) (by rw [max4, l4, hmax]; exact bhi)
      rw [hmin2, hmax2] at this
      exact this

end LoadBalancer

namespace LoadBalancer

theorem evolves_admissionGrows (lb lb1 : LoadBalancer) (h : Evolves lb lb1) :
    AdmissionGrows lb lb1 := by
  induction h with
  | refl => exact admissionGrows_refl lb
  | admission lb1 g a b t _ ih =>
    exact admissionGrows_trans ih (admissionGrows_generateRandomRequestWith lb1 g a b t)
  | cycle lb1 lb2 g g2 _ hstep ih =>
    exact admissionGrows_trans ih (processCycle_admission lb1 lb2 g g2 hstep)

theorem evolves_admitAll (lb0 : LoadBalancer) (cs : List (String × String × Int)) :
    ∀ st : LoadBalancer × RandStream, Evolves lb0 st.1 → Evolves lb0 (admitAll cs st).1 := by
  induction cs with
  | nil => intro st h; exact h
  | cons c cs ih =>
    intro st h
    obtain ⟨a, b, t⟩ := c
    exact ih _ (Evolves.admission lb0 st.1 st.2 a b t h)

/-- A blocked address of at least 7 characters is rejected in any state. -/
theorem rejects_of_blocked_long (lb : LoadBalancer) (A : String) (hlen : 7 ≤ A.length)
    (hA : A ∈ lb.blocked_ips) (g : RandStream) (b : String) (t : Int) :
    (lb.generateRandomRequestWith g A b t).1 = none := by
  by_cases hb : b.length = 0
  · rw [generateRandomRequestWith_empty lb g A b t (Or.inr hb)]
  · have hblk : lb.isIPBlocked A = true := by
      rw [isIPBlocked_long lb A hlen]; simp [hA]
    rw [generateRandomRequestWith_blocked lb g A b t (by omega) hb hblk]

end LoadBalancer

/-- C1. Idempotent blocking.  Let `A` be an address in `blocked_ips` of a state
`lb`, where `lb` is any state at all if `A` has at least 7 characters (as every
address made by `generateRandomIP` has), and otherwise any state the load
balancer can reach from its constructor by `processCycle` calls and admission
decisions.  Then in `lb` and in every later state `lb1`, whatever was admitted or
rejected in between, `A` is still in `blocked_ips` and the admission decision of
`generateRandomRequest` (`isIPBlocked`, then the per-IP count check) for a
candidate with source `A` returns no request. -/
theorem idempotent_blocking (lb : LoadBalancer) (A : String) (hA : A ∈ lb.blocked_ips)
    (hs : 7 ≤ A.length ∨
      ∃ (g0 : RandStream) (i m : Int), LoadBalancer.Evolves (LoadBalancer.new g0 i m).1 lb)
    (lb1 : LoadBalancer) (hl : LoadBalancer.Evolves lb lb1)
    (g : RandStream) (b : String) (t : Int) :
    A ∈ lb1.blocked_ips ∧ (lb1.generateRandomRequestWith g A b t).1 = none := by
  have hg := LoadBalancer.evolves_admissionGrows _ _ hl
  have hA1 : A ∈ lb1.blocked_ips := hg.2.1 A hA
  refine ⟨hA1, ?_⟩
  rcases hs with hlen | ⟨g0, i, m, hr⟩
  · exact LoadBalancer.rejects_of_blocked_long lb1 A hlen hA1 g b t
  · have hj0 := (LoadBalancer.new_spec g0 i m).2.2.2
    have hj : lb.BlockedJustified := (LoadBalancer.evolves_admissionGrows _ _ hr).2.2.2.2 hj0
    exact LoadBalancer.rejects_of_blocked lb1 (hg.2.2.2.2 hj) A hA1 g b t

/-- Witness for C1: after 51 checks for `8.8.8.8` on a load balancer built with
no servers, the address is blocked and the next candidate from it is
rejected. -/
theorem idempotent_blocking_witness :
    "8.8.8.8" ∈ (LoadBalancer.admitAll (List.replicate 51 ("8.8.8.8", "1.1.1.1", 0))
      ((LoadBalancer.new zeroStream 0 0).1, zeroStream)).1.blocked_ips ∧
    ((LoadBalancer.admitAll (List.replicate 51 ("8.8.8.8", "1.1.1.1", 0))
      ((LoadBalancer.new zeroStream 0 0).1, zeroStream)).1.generateRandomRequestWith
        zeroStream "8.8.8.8" "1.1.1.1" 0).1 = none :=
  idempotent_blocking
    (LoadBalancer.admitAll (List.replicate 51 ("8.8.8.8", "1.1.1.1", 0))
      ((LoadBalancer.new zeroStream 0 0).1, zeroStream)).1
    "8.8.8.8"
    ((LoadBalancer.countedTimes_admitAll "8.8.8.8" (by decide) (by decide)
        (List.replicate 51 ("8.8.8.8", "1.1.1.1", 0)) 0
        ((LoadBalancer.new zeroStream 0 0).1, zeroStream)
        (by intro c hc; rw [List.eq_of_mem_replicate hc]; decide)
        ⟨by decide, by decide, by decide⟩).2.2.mpr (by simp))
    (Or.inr ⟨zeroStream, 0, 0,
      LoadBalancer.evolves_admitAll (LoadBalancer.new zeroStream 0 0).1
        (List.replicate 51 ("8.8.8.8", "1.1.1.1", 0))
        ((LoadBalancer.new zeroStream 0 0).1, zeroStream)
        (LoadBalancer.Evolves.refl (LoadBalancer.new zeroStream 0 0).1)⟩)
    (LoadBalancer.admitAll (List.replicate 51 ("8.8.8.8", "1.1.1.1", 0))
      ((LoadBalancer.new zeroStream 0 0).1, zeroStream)).1
    (LoadBalancer.Evolves.refl
      (LoadBalancer.admitAll (List.replicate 51 ("8.8.8.8", "1.1.1.1", 0))
        ((LoadBalancer.new zeroStream 0 0).1, zeroStream)).1)
    zeroStream "1.1.1.1" 0

/-- C8. Pool-size bounds.  For a load balancer constructed with
`0 <= initialServers <= maxServers`: after construction and after every
`processCycle` call, `min_servers <= number of servers <= max_servers`, for every
sequence of random draws; and from every such state the next `processCycle`
call returns normally, again within the bounds. -/
theorem pool_size_bounds (i m : Int) (h0 : 0 ≤ i) (h1 : i ≤ m) (lb : LoadBalancer)
    (hr : LoadBalancer.ReachableFrom i m lb) :
    lb.min_servers = i ∧ lb.max_servers = m ∧
    lb.min_servers ≤ (lb.servers.length : Int) ∧ (lb.servers.length : Int) ≤ lb.max_servers ∧
    (∀ g : RandStream, ∃ lb2 g2, lb.processCycle g = some (lb2, g2) ∧
      lb2.min_servers ≤ (lb2.servers.length : Int) ∧
      (lb2.servers.length : Int) ≤ lb2.max_servers) := by
  obtain ⟨hc, hmin, hmax, _, hb⟩ := LoadBalancer.reachable_invariants i m lb hr
  obtain ⟨blo, bhi⟩ := hb h0 h1
  refine ⟨hmin, hmax, by rw [hmin]; exact blo, by rw [hmax]; exact bhi, ?_⟩
  intro g
  obtain ⟨lb5, g5, hs, _, _, _, b5⟩ :=
    LoadBalancer.processCycle_defined lb g (by rw [hmin]; exact h0) hc
  exact ⟨lb5, g5, hs, b5 (by rw [hmin]; exact blo) (by rw [hmax]; exact bhi)⟩

/-- Witness for C8: the load balancer constructed with one server, at most
two. -/
theorem pool_size_bounds_witness :
    (LoadBalancer.new zeroStream 1 2).1.min_servers = 1 ∧
    (LoadBalancer.new zeroStream 1 2).1.max_servers = 2 ∧
    (LoadBalancer.new zeroStream 1 2).1.min_servers ≤
      ((LoadBalancer.new zeroStream 1 2).1.servers.length : Int) ∧
    ((LoadBalancer.new zeroStream 1 2).1.servers.length : Int) ≤
      (LoadBalancer.new zeroStream 1 2).1.max_servers ∧
    (∀ g : RandStream, ∃ lb2 g2,
      (LoadBalancer.new zeroStream 1 2).1.processCycle g = some (lb2, g2) ∧
      lb2.min_servers ≤ (lb2.servers.length : Int) ∧
      (lb2.servers.length : Int) ≤ lb2.max_servers) :=
  pool_size_bounds 1 2 (by decide) (by decide) _ (LoadBalancer.ReachableFrom.ctor zeroStream)

namespace LoadBalancer

/-- A scale-down of a consistent pool happens with no busy server and removes
the last server, which holds no request. -/
theorem scale_down_of_consistent (lb4 lb5 : LoadBalancer)
    (hc : ∀ s ∈ lb4.servers, s.Consistent)
    (hs : lb4.scaleServers = some lb5) (hlt : lb5.servers.length < lb4.servers.length) :
    lb4.getBusyServers = 0 ∧ (∀ s ∈ lb4.servers, s.isBusy = false) ∧
    (∃ last, lb4.servers = lb5.servers ++ [last] ∧ last.isBusy = false ∧
      last.current_request = none) ∧
    lb5.request_queue = lb4.request_queue := by
  obtain ⟨e5, hcase⟩ := scaleServers_eq_some lb4 lb5 hs
  rcases hcase with ⟨e, _⟩ | ⟨e, hne, _, hu⟩ | ⟨e, _⟩
  · rw [e, List.length_append, List.length_singleton] at hlt
    omega
  · obtain ⟨_, _, hbusy⟩ := hu
    have hall := (getBusyServers_eq_zero lb4).mp hbusy
    have hmem : lb4.servers.getLast hne ∈ lb4.servers := List.getLast_mem hne
    refine ⟨hbusy, hall, ⟨lb4.servers.getLast hne, ?_, hall _ hmem, ?_⟩, ?_⟩
    · rw [e]
      exact (List.dropLast_append_getLast hne).symm
    · exact (hc _ hmem).2 (hall _ hmem)
    · rw [e5]
  · rw [e] at hlt
    omega

end LoadBalancer

/-- C9. Scale-down never drops work.  In every state `lb` reachable from the
constructor by `processCycle` calls, whenever `scaleServers` removes a server,
be it called on `lb` itself or at its place inside the next `processCycle`
(on the state `lb4` produced by the steps before it), no server is busy, the
server removed is the last one, it is idle and its `current_request` is null, and
the queue is untouched: no in-flight and no completed-but-unretrieved request is
destroyed. -/
theorem scale_down_drops_no_work (i m : Int) (lb : LoadBalancer)
    (hr : LoadBalancer.ReachableFrom i m lb) :
    (∀ lb5 : LoadBalancer, lb.scaleServers = some lb5 →
      lb5.servers.length < lb.servers.length →
      lb.getBusyServers = 0 ∧ (∀ s ∈ lb.servers, s.isBusy = false) ∧
      (∃ last, lb.servers = lb5.servers ++ [last] ∧ last.isBusy = false ∧
        last.current_request = none) ∧
      lb5.request_queue = lb.request_queue) ∧
    (∀ (g g4 : RandStream) (lb4 lb5 : LoadBalancer),
      lb.beforeScale g = some (lb4, g4) → lb4.scaleServers = some lb5 →
      lb5.servers.length < lb4.servers.length →
      lb4.getBusyServers = 0 ∧ (∀ s ∈ lb4.servers, s.isBusy = false) ∧
      (∃ last, lb4.servers = lb5.servers ++ [last] ∧ last.isBusy = false ∧
        last.current_request = none) ∧
      lb5.request_queue = lb4.request_queue) := by
  obtain ⟨hc, _⟩ := LoadBalancer.reachable_invariants i m lb hr
  constructor
  · intro lb5 hs hlt
    exact LoadBalancer.scale_down_of_consistent lb lb5 hc hs hlt
  · intro g g4 lb4 lb5 hb hs hlt
    obtain ⟨lb4a, g4a, hb2, c4, _⟩ := LoadBalancer.beforeScale_defined lb g hc
    rw [hb] at hb2
    simp only [Option.some.injEq, Prod.mk.injEq] at hb2
    obtain ⟨e4, _⟩ := hb2
    subst e4
    exact LoadBalancer.scale_down_of_consistent lb4 lb5 c4 hs hlt

/-- Witness for C9: `LoadBalancer(0, 1)` with all draws 0.  Its second cycle
scales down; the pool is idle and the removed server holds no request. -/
theorem scale_down_drops_no_work_witness :
    LoadBalancer.secondCycleBeforeScale.getBusyServers = 0 ∧
    (∀ s ∈ LoadBalancer.secondCycleBeforeScale.servers, s.isBusy = false) ∧
    (∃ last, LoadBalancer.secondCycleBeforeScale.servers =
        ({ LoadBalancer.secondCycleBeforeScale with servers := [] } : LoadBalancer).servers ++ [last] ∧
      last.isBusy = false ∧ last.current_request = none) ∧
    ({ LoadBalancer.secondCycleBeforeScale with servers := [] } : LoadBalancer).request_queue =
      LoadBalancer.secondCycleBeforeScale.request_queue :=
  (scale_down_drops_no_work 0 1 LoadBalancer.afterFirstCycle
    (LoadBalancer.ReachableFrom.cycle (LoadBalancer.new zeroStream 0 1).1
      LoadBalancer.afterFirstCycle zeroStream { draws := fun _ => 0, pos := 10 }
      (LoadBalancer.ReachableFrom.ctor zeroStream) rfl)).2
    { draws := fun _ => 0, pos := 10 } { draws := fun _ => 0, pos := 20 }
    LoadBalancer.secondCycleBeforeScale
    { LoadBalancer.secondCycleBeforeScale with servers := [] }
    rfl (by decide) (by decide)

/-! ## Dispatch -/

namespace LoadBalancer

theorem idleBefore_zero (ss : List WebServer) : idleBefore ss 0 = 0 := by
  simp [idleBefore]

theorem idleBefore_cons_succ (s : WebServer) (rest : List WebServer) (j : Nat) :
    idleBefore (s :: rest) (j + 1) =
      (if s.isBusy then 0 else 1) + idleBefore rest j := by
  unfold idleBefore
  cases hb : s.isBusy with
  | true => simp [List.filter_cons, hb]
  | false => simp [List.filter_cons, hb]; omega

/-- The dispatch loop, server by server and for the queue. -/
theorem assignLoop_spec (t : Int) (ss : List WebServer) :
    ∀ q : List Request,
      (assignLoop t ss q).2 =
        q.drop (min (ss.filter (fun s => !s.isBusy)).length q.length) ∧
      ∀ i : Nat, (assignLoop t ss q).1[i]? =
        (ss[i]?).map (fun s => dispatched t s (q[idleBefore ss i]?)) := by
  induction ss with
  | nil => intro q; simp [assignLoop]
  | cons s rest ih =>
    intro q
    rcases assignLoop_cons_cases t s rest q with ⟨hb, req, q1, hq, e⟩ | ⟨hskip, e⟩
    · subst hq
      rw [e]
      obtain ⟨ihq, ihs⟩ := ih q1
      constructor
      · show (assignLoop t rest q1).2 = _
        rw [ihq]
        have hf : (s :: rest).filter (fun s => !s.isBusy) =
            s :: rest.filter (fun s => !s.isBusy) := by
          simp [List.filter_cons, hb]
        rw [hf]
        simp only [List.length_cons]
        rw [Nat.succ_min_succ, List.drop_succ_cons]
      · intro i
        cases i with
        | zero =>
          have hb2 : s.busy = false := hb
          simp [idleBefore_zero, dispatched, hb, WebServer.assignRequest_idle s req t hb2]
        | succ j =>
          rw [List.getElem?_cons_succ, List.getElem?_cons_succ, ihs j, idleBefore_cons_succ]
          simp only [hb, Bool.false_eq_true, if_false]
          rw [Nat.add_comm 1 _, List.getElem?_cons_succ]
    · rw [e]
      obtain ⟨ihq, ihs⟩ := ih q
      rcases hskip with hb | hq
      · constructor
        · show (assignLoop t rest q).2 = _
          rw [ihq]
          have hf : (s :: rest).filter (fun s => !s.isBusy) =
              rest.filter (fun s => !s.isBusy) := by
            simp [List.filter_cons, hb]
          rw [hf]
        · intro i
          cases i with
          | zero => simp [dispatched, hb]
          | succ j =>
            rw [List.getElem?_cons_succ, List.getElem?_cons_succ, ihs j, idleBefore_cons_succ]
            simp [hb]
      · subst hq
        constructor
        · show (assignLoop t rest []).2 = _
          rw [ihq]
          simp
        · intro i
          cases i with
          | zero => simp [dispatched]
          | succ j =>
            rw [List.getElem?_cons_succ, List.getElem?_cons_succ, ihs j]
            simp

/-- After the dispatch loop the queue is empty or every server is busy. -/
theorem assignLoop_saturates (t : Int) (ss : List WebServer) :
    ∀ q : List Request,
      (assignLoop t ss q).2 = [] ∨ ∀ s ∈ (assignLoop t ss q).1, s.isBusy = true := by
  induction ss with
  | nil => intro q; right; intro s hs; simp [assignLoop] at hs
  | cons s rest ih =>
    intro q
    rcases assignLoop_cons_cases t s rest q with ⟨hb, req, q1, hq, e⟩ | ⟨hskip, e⟩
    · rw [e]
      rcases ih q1 with h | h
      · exact Or.inl h
      · right
        intro x hx
        rcases List.mem_cons.mp hx with hx | hx
        · subst hx
          have hb2 : s.busy = false := hb
          rw [WebServer.assignRequest_idle s req t hb2]
          rfl
        · exact h x hx
    · rw [e]
      rcases hskip with hb | hq
      · rcases ih q with h | h
        · exact Or.inl h
        · right
          intro x hx
          rcases List.mem_cons.mp hx with hx | hx
          · subst hx; exact hb
          · exact h x hx
      · subst hq
        left
        show (assignLoop t rest []).2 = []
        rw [(assignLoop_spec t rest []).1]
        simp

theorem assignLoop_length (t : Int) (ss : List WebServer) :
    ∀ q : List Request, (assignLoop t ss q).1.length = ss.length := by
  induction ss with
  | nil => intro q; simp [assignLoop]
  | cons s rest ih =>
    intro q
    rcases assignLoop_cons_cases t s rest q with ⟨_, req, q1, _, e⟩ | ⟨_, e⟩
    · rw [e]; simp [ih q1]
    · rw [e]; simp [ih q]

end LoadBalancer

/-- C10. FIFO dispatch.  For every queue `q` and server pool, with
`k = min(number of non-busy servers, length of q)`, `assignRequests` leaves the
queue `q` without its first `k` elements and a pool of the same size in which
server `i` is unchanged if it was busy, and otherwise, being the `j`-th non-busy
server in pool order (`j = idleBefore servers i`, counted from 0), has taken the
`j`-th request of `q` with `assigned_time = current_time` when `q` has one, and
is unchanged when `q` is too short.  Afterwards the queue is empty or every
server is busy.  Nothing else in the load balancer changes. -/
theorem fifo_dispatch (lb : LoadBalancer) :
    lb.assignRequests.request_queue =
      lb.request_queue.drop
        (min (lb.servers.filter (fun s => !s.isBusy)).length lb.request_queue.length) ∧
    lb.assignRequests.servers.length = lb.servers.length ∧
    (∀ i : Nat, lb.assignRequests.servers[i]? =
      (lb.servers[i]?).map (fun s =>
        if s.isBusy then s
        else
          match lb.request_queue[idleBefore lb.servers i]? with
          | some req =>
            { busy := true, time_remaining := req.process_time,
              current_request := some { req with assigned_time := lb.current_time } }
          | none => s)) ∧
    (lb.assignRequests.request_queue = [] ∨
      ∀ s ∈ lb.assignRequests.servers, s.isBusy = true) ∧
    lb.assignRequests =
      { lb with servers := lb.assignRequests.servers,
                request_queue := lb.assignRequests.request_queue } := by
  obtain ⟨hq, hs⟩ := LoadBalancer.assignLoop_spec lb.current_time lb.servers lb.request_queue
  refine ⟨hq, LoadBalancer.assignLoop_length _ _ _, ?_,
    LoadBalancer.assignLoop_saturates _ _ _, rfl⟩
  intro i
  exact hs i

/-! ## Server contract outside its precondition -/

/-- C13, as stated, fails: a fresh server that has just been assigned a request
of duration 3 is busy, `isRequestDone()` is false, and yet `finishRequest()`
returns that request (not null); the server is left busy with
`time_remaining = 3` and no request. This is the call `~LoadBalancer` makes on a
busy server to obtain the request in service and delete it. -/
theorem finishRequest_returns_unfinished_request :
    (WebServer.new.assignRequest (Request.new "8.8.8.8" "1.1.1.1" 3 0) 7).1.isRequestDone = false ∧
    (WebServer.new.assignRequest (Request.new "8.8.8.8" "1.1.1.1" 3 0) 7).1.finishRequest.1 =
      some ⟨"8.8.8.8", "1.1.1.1", 3, 0, 7, false⟩ ∧
    (WebServer.new.assignRequest (Request.new "8.8.8.8" "1.1.1.1" 3 0) 7).1.finishRequest.2 =
      ⟨true, 3, none⟩ := by
  decide

/-- C13, amended. Retrieve on a server that is not done: for every server state
in which `isRequestDone()` is false, `finishRequest()` returns no request
(nullptr) exactly when the server holds no request. When it holds one, the
server is still busy or the request is not marked processed, and the call
returns that request with `processed` set to false. In both cases the server
afterwards holds no request and keeps `busy` and `time_remaining`. -/
theorem finishRequest_when_not_done (s : WebServer) (hnd : s.isRequestDone = false) :
    (s.finishRequest.1 = none ↔ s.current_request = none) ∧
    (∀ r, s.current_request = some r →
      (s.isBusy = true ∨ r.processed = false) ∧
      s.finishRequest.1 = some { r with processed := false }) ∧
    s.finishRequest.2 = { s with current_request := none } := by
  obtain ⟨busy, tr, cur⟩ := s
  cases cur with
  | none => simp [WebServer.finishRequest]
  | some r0 =>
    refine ⟨by simp [WebServer.finishRequest], ?_, rfl⟩
    intro r hr
    simp only [Option.some.injEq] at hr
    subst hr
    refine ⟨?_, rfl⟩
    cases busy with
    | true => exact Or.inl rfl
    | false =>
      right
      simpa [WebServer.isRequestDone] using hnd

/-- Witness for C13 (amended): the busy server holding the request
`8.8.8.8 -> 1.1.1.1` of duration 3 assigned at tick 7. -/
theorem finishRequest_when_not_done_witness :
    (WebServer.mk true 3 (some ⟨"8.8.8.8", "1.1.1.1", 3, 0, 7, false⟩)).isRequestDone = false ∧
    (((WebServer.mk true 3 (some ⟨"8.8.8.8", "1.1.1.1", 3, 0, 7, false⟩)).finishRequest.1 = none ↔
      (WebServer.mk true 3 (some ⟨"8.8.8.8", "1.1.1.1", 3, 0, 7, false⟩)).current_request = none) ∧
    (∀ r, (WebServer.mk true 3 (some ⟨"8.8.8.8", "1.1.1.1", 3, 0, 7, false⟩)).current_request = some r →
      ((WebServer.mk true 3 (some ⟨"8.8.8.8", "1.1.1.1", 3, 0, 7, false⟩)).isBusy = true ∨
        r.processed = false) ∧
      (WebServer.mk true 3 (some ⟨"8.8.8.8", "1.1.1.1", 3, 0, 7, false⟩)).finishRequest.1 =
        some { r with processed := false }) ∧
    (WebServer.mk true 3 (some ⟨"8.8.8.8", "1.1.1.1", 3, 0, 7, false⟩)).finishRequest.2 =
      { (WebServer.mk true 3 (some ⟨"8.8.8.8", "1.1.1.1", 3, 0, 7, false⟩)) with
        current_request := none }) :=
  ⟨by decide,
   finishRequest_when_not_done (WebServer.mk true 3 (some ⟨"8.8.8.8", "1.1.1.1", 3, 0, 7, false⟩))
     (by decide)⟩

/-- C15. Assign while busy is a no-op: for every busy server `s`, every request
`r` and every tick `t`, `assignRequest(r, t)` leaves the server as it was (busy
flag, `time_remaining`, current request) and leaves `r` as it was (its
`assigned_time` is not set). -/
theorem assign_while_busy_is_noop (s : WebServer) (r : Request) (t : Int)
    (hb : s.isBusy = true) :
    (s.assignRequest r t).1 = s ∧
    (s.assignRequest r t).1.busy = s.busy ∧
    (s.assignRequest r t).1.time_remaining = s.time_remaining ∧
    (s.assignRequest r t).1.current_request = s.current_request ∧
    (s.assignRequest r t).2 = r ∧
    (s.assignRequest r t).2.assigned_time = r.assigned_time := by
  have hb2 : s.busy = true := hb
  have e : s.assignRequest r t = (s, r) := by
    simp [WebServer.assignRequest, hb2]
  rw [e]
  exact ⟨rfl, rfl, rfl, rfl, rfl, rfl⟩

/-- Witness for C15: a server busy with one request is offered another one at
tick 9. -/
theorem assign_while_busy_is_noop_witness :
    ((⟨true, 3, some ⟨"8.8.8.8", "1.1.1.1", 3, 0, 7, false⟩⟩ : WebServer).assignRequest
        (Request.new "9.9.9.9" "1.1.1.1" 2 8) 9).1 =
      ⟨true, 3, some ⟨"8.8.8.8", "1.1.1.1", 3, 0, 7, false⟩⟩ ∧
    ((⟨true, 3, some ⟨"8.8.8.8", "1.1.1.1", 3, 0, 7, false⟩⟩ : WebServer).assignRequest
        (Request.new "9.9.9.9" "1.1.1.1" 2 8) 9).2 = Request.new "9.9.9.9" "1.1.1.1" 2 8 :=
  ⟨(assign_while_busy_is_noop ⟨true, 3, some ⟨"8.8.8.8", "1.1.1.1", 3, 0, 7, false⟩⟩
      (Request.new "9.9.9.9" "1.1.1.1" 2 8) 9 rfl).1,
   (assign_while_busy_is_noop ⟨true, 3, some ⟨"8.8.8.8", "1.1.1.1", 3, 0, 7, false⟩⟩
      (Request.new "9.9.9.9" "1.1.1.1" 2 8) 9 rfl).2.2.2.2.1⟩

/-! ## Shape of what admission control lets through -/

namespace LoadBalancer

/-- Every request the body of `generateRandomRequest` creates comes from the
`Request` constructor with a duration `1 + rand() % 10`. -/
theorem generateRandomRequestWith_some (lb : LoadBalancer) (g : RandStream)
    (a b : String) (t : Int) (r : Request)
    (h : (lb.generateRandomRequestWith g a b t).1 = some r) :
    r = Request.new a b (1 + ((rand g).1 % 10 : Nat)) t := by
  by_cases he : a.length = 0 ∨ b.length = 0
  · rw [generateRandomRequestWith_empty lb g a b t he] at h
    exact absurd h (by simp)
  · have ha : a.length ≠ 0 := fun h => he (Or.inl h)
    have hb : b.length ≠ 0 := fun h => he (Or.inr h)
    cases hblk : lb.isIPBlocked a with
    | true =>
      rw [generateRandomRequestWith_blocked lb g a b t ha hb hblk] at h
      exact absurd h (by simp)
    | false =>
      by_cases hc : lb.max_requests_per_ip < lb.requestCount a + 1
      · rw [generateRandomRequestWith_over lb g a b t ha hb hblk hc] at h
        exact absurd h (by simp)
      · rw [generateRandomRequestWith_accept lb g a b t ha hb hblk (by omega)] at h
        exact (Option.some.inj h).symm

theorem pushIfAny_queue (res : Option Request × LoadBalancer × RandStream) :
    (pushIfAny res).1.request_queue = res.2.1.request_queue ++ res.1.toList := by
  obtain ⟨r, lb1, g1⟩ := res
  cases r with
  | none => simp [pushIfAny]
  | some req => simp [pushIfAny]

theorem generateRandomRequest_queue (lb : LoadBalancer) (g : RandStream) (t : Int) :
    (lb.generateRandomRequest g t).2.1.request_queue = lb.request_queue := by
  have h := (generateRandomRequestWith_frame lb (generateRandomIP (generateRandomIP g).2).2
    (generateRandomIP g).1 (generateRandomIP (generateRandomIP g).2).1 t).2.1
  rw [← generateRandomRequest_eq] at h
  exact h

/-- The queue after `addRequest`: the old queue, followed by the generated
request when the arrival draw succeeds and the candidate is accepted. -/
theorem addRequest_queue (lb : LoadBalancer) (g : RandStream) :
    (lb.addRequest g).1.request_queue =
      lb.request_queue ++
        (if (rand g).1 % 10 = 0 then
          (lb.generateRandomRequest (rand g).2 lb.current_time).1.toList
         else []) := by
  unfold addRequest
  simp only []
  split
  · rw [pushIfAny_queue, generateRandomRequest_queue]
  · simp

end LoadBalancer

/-- C17. Shape of an accepted request: for every sequence of random draws, every
request created by `generateRandomRequest(t)` has `process_time` in `[1, 10]`,
`arrival_time = t`, `assigned_time = -1` and `processed = false`; in particular a
request that `addRequest` appends to the queue has these values with `t` the
current clock. -/
theorem accepted_request_shape (lb : LoadBalancer) (g : RandStream) (t : Int) :
    (∀ r : Request, (lb.generateRandomRequest g t).1 = some r →
      (1 ≤ r.process_time ∧ r.process_time ≤ 10) ∧
      r.arrival_time = t ∧ r.assigned_time = -1 ∧ r.processed = false) ∧
    (∀ r : Request, (lb.addRequest g).1.request_queue = lb.request_queue ++ [r] →
      (1 ≤ r.process_time ∧ r.process_time ≤ 10) ∧
      r.arrival_time = lb.current_time ∧ r.assigned_time = -1 ∧ r.processed = false) := by
  have hshape : ∀ (a b : String) (n : Nat) (u : Int) (x : Request),
      x = Request.new a b (1 + ((n % 10 : Nat) : Int)) u →
      (1 ≤ x.process_time ∧ x.process_time ≤ 10) ∧
      x.arrival_time = u ∧ x.assigned_time = -1 ∧ x.processed = false := by
    intro a b n u x hx
    subst hx
    refine ⟨⟨?_, ?_⟩, rfl, rfl, rfl⟩
    · show (1 : Int) ≤ 1 + ((n % 10 : Nat) : Int)
      omega
    · show (1 : Int) + ((n % 10 : Nat) : Int) ≤ 10
      omega
  have hgen : ∀ (g1 : RandStream) (u : Int) (r : Request),
      (lb.generateRandomRequest g1 u).1 = some r →
      (1 ≤ r.process_time ∧ r.process_time ≤ 10) ∧
      r.arrival_time = u ∧ r.assigned_time = -1 ∧ r.processed = false := by
    intro g1 u r h
    rw [LoadBalancer.generateRandomRequest_eq] at h
    exact hshape _ _ _ _ r (LoadBalancer.generateRandomRequestWith_some lb _ _ _ u r h)
  refine ⟨hgen g t, ?_⟩
  intro r hq
  rw [LoadBalancer.addRequest_queue] at hq
  have hx := List.append_cancel_left hq
  by_cases hd : (rand g).1 % 10 = 0
  · rw [if_pos hd] at hx
    cases hres : (lb.generateRandomRequest (rand g).2 lb.current_time).1 with
    | none => rw [hres] at hx; simp at hx
    | some r1 =>
      rw [hres] at hx
      simp at hx
      subst hx
      exact hgen _ _ _ hres
  · rw [if_neg hd] at hx
    simp at hx

/-- Witness for C17: on a fresh load balancer with all draws 0 the candidate
`0.0.0.0 -> 0.0.0.0` generated at tick 5 is accepted. -/
theorem accepted_request_shape_witness :
    (1 ≤ (⟨"0.0.0.0", "0.0.0.0", 1, 5, -1, false⟩ : Request).process_time ∧
      (⟨"0.0.0.0", "0.0.0.0", 1, 5, -1, false⟩ : Request).process_time ≤ 10) ∧
    (⟨"0.0.0.0", "0.0.0.0", 1, 5, -1, false⟩ : Request).arrival_time = 5 ∧
    (⟨"0.0.0.0", "0.0.0.0", 1, 5, -1, false⟩ : Request).assigned_time = -1 ∧
    (⟨"0.0.0.0", "0.0.0.0", 1, 5, -1, false⟩ : Request).processed = false :=
  (accepted_request_shape LoadBalancer.fresh zeroStream 5).1
    ⟨"0.0.0.0", "0.0.0.0", 1, 5, -1, false⟩ (by decide)

/-- C18. Short addresses bypass the block list: for every address string
shorter than 7 characters `isIPBlocked` returns false in every state, whether or
not the address is in `blocked_ips` or begins with `10.` or `127.`; so a candidate
from such an address (with non-empty source and destination, i.e. one that
reaches the admission check) is never rejected through `isIPBlocked`: on every
check its count is incremented, and it is rejected exactly when the incremented
count exceeds the threshold. -/
theorem short_address_bypasses_block_list (lb : LoadBalancer) (ip : String)
    (hshort : ip.length < 7) :
    lb.isIPBlocked ip = false ∧
    (∀ (g : RandStream) (out : String) (t : Int), ip ≠ "" → out ≠ "" →
      mapFind (lb.generateRandomRequestWith g ip out t).2.1.ip_request_count ip =
        some (lb.requestCount ip + 1) ∧
      ((lb.generateRandomRequestWith g ip out t).1 = none ↔
        lb.max_requests_per_ip < lb.requestCount ip + 1)) := by
  have hblk := LoadBalancer.isIPBlocked_short lb ip hshort
  refine ⟨hblk, ?_⟩
  intro g out t hip hout
  have ha := length_ne_zero_of_ne_empty ip hip
  have hb := length_ne_zero_of_ne_empty out hout
  by_cases hc : lb.max_requests_per_ip < lb.requestCount ip + 1
  · rw [LoadBalancer.generateRandomRequestWith_over lb g ip out t ha hb hblk hc]
    exact ⟨mapFind_mapSet_same _ _ _, by simp [hc]⟩
  · rw [LoadBalancer.generateRandomRequestWith_accept lb g ip out t ha hb hblk (by omega)]
    exact ⟨mapFind_mapSet_same _ _ _, by simp [hc]⟩

/-- Witness for C18: the address `10.1` in a state where it is in
`blocked_ips`. -/
theorem short_address_bypasses_block_list_witness :
    ({ LoadBalancer.fresh with blocked_ips := ["10.1"] } : LoadBalancer).isIPBlocked "10.1" = false ∧
    (∀ (g : RandStream) (out : String) (t : Int), "10.1" ≠ "" → out ≠ "" →
      mapFind (({ LoadBalancer.fresh with blocked_ips := ["10.1"] } :
          LoadBalancer).generateRandomRequestWith g "10.1" out t).2.1.ip_request_count "10.1" =
        some (({ LoadBalancer.fresh with blocked_ips := ["10.1"] } :
          LoadBalancer).requestCount "10.1" + 1) ∧
      ((({ LoadBalancer.fresh with blocked_ips := ["10.1"] } :
          LoadBalancer).generateRandomRequestWith g "10.1" out t).1 = none ↔
        ({ LoadBalancer.fresh with blocked_ips := ["10.1"] } : LoadBalancer).max_requests_per_ip <
          ({ LoadBalancer.fresh with blocked_ips := ["10.1"] } :
            LoadBalancer).requestCount "10.1" + 1)) :=
  short_address_bypasses_block_list { LoadBalancer.fresh with blocked_ips := ["10.1"] } "10.1"
    (by decide)

/-! ## Scaling at capacity -/

/-- C14, as stated, fails: with two idle servers at `max_servers = 2`, five
queued requests (more than `2 * 2`) and `min_servers = 1`, `scaleServers` does
change the pool: the scale-up guard fails, the scale-down guard holds, and the
last server is removed. -/
theorem scale_up_at_capacity_scales_down :
    (LoadBalancer.atCapacity.servers.length : Int) = LoadBalancer.atCapacity.max_servers ∧
    (LoadBalancer.atCapacity.request_queue.length : Int) >
      2 * (LoadBalancer.atCapacity.servers.length : Int) ∧
    LoadBalancer.atCapacity.scaleServers =
      some { LoadBalancer.atCapacity with servers := [WebServer.new] } ∧
    LoadBalancer.atCapacity.scaleServers ≠ some LoadBalancer.atCapacity := by
  decide

/-- C14, amended. Scale-up declines at capacity: in every state in which the
number of servers equals `max_servers` and the queue depth is greater than twice
the number of servers, the scale-up guard fails although its load half holds, and
`scaleServers` adds no server; it leaves the load balancer
unchanged unless the scale-down guard holds (queue depth `<= 5`, more than
`min_servers` servers, no busy server), in which case it removes the last
server. -/
theorem scale_up_declines_at_capacity (lb : LoadBalancer)
    (hcap : (lb.servers.length : Int) = lb.max_servers)
    (hload : (lb.request_queue.length : Int) > 2 * (lb.servers.length : Int)) :
    ((lb.request_queue.length : Int) > (lb.servers.length : Int) * 2 ∧ ¬ lb.Overloaded) ∧
    (∀ lb1, lb.scaleServers = some lb1 → lb1.servers.length ≤ lb.servers.length) ∧
    (¬ lb.Underloaded → lb.scaleServers = some lb) ∧
    (lb.Underloaded → ∀ init last, lb.servers = init ++ [last] →
      lb.scaleServers = some { lb with servers := init }) := by
  have h1 : ¬ lb.Overloaded := by
    intro h
    obtain ⟨_, hlt⟩ := h
    omega
  refine ⟨⟨by omega, h1⟩, ?_, LoadBalancer.scaleServers_same lb h1, ?_⟩
  · intro lb1 hs
    obtain ⟨_, hcase⟩ := LoadBalancer.scaleServers_eq_some lb lb1 hs
    rcases hcase with ⟨_, ho⟩ | ⟨e, _⟩ | ⟨e, _⟩
    · exact absurd ho h1
    · rw [e, List.length_dropLast]; omega
    · rw [e]
  · intro h2 init last e
    have hne : lb.servers ≠ [] := by rw [e]; simp
    rw [LoadBalancer.scaleServers_down lb h1 h2 hne]
    have : lb.servers.dropLast = init := by rw [e]; simp
    rw [this]

/-- Witness for C14 (amended): three busy servers at `max_servers = 3` with seven
queued requests: nothing changes. -/
theorem scale_up_declines_at_capacity_witness :
    ({ LoadBalancer.poolOfThree with
        servers := List.replicate 3 ⟨true, 2, some (Request.new "8.8.8.8" "1.1.1.1" 3 0)⟩,
        max_servers := 3 } : LoadBalancer).scaleServers =
      some { LoadBalancer.poolOfThree with
        servers := List.replicate 3 ⟨true, 2, some (Request.new "8.8.8.8" "1.1.1.1" 3 0)⟩,
        max_servers := 3 } :=
  (scale_up_declines_at_capacity
    { LoadBalancer.poolOfThree with
        servers := List.replicate 3 ⟨true, 2, some (Request.new "8.8.8.8" "1.1.1.1" 3 0)⟩,
        max_servers := 3 }
    (by decide) (by decide)).2.2.1 (by decide)

/-! ## The pre-filled queue -/

namespace LoadBalancer

/-- Every generated address has between 7 and 15 characters. -/
theorem generateRandomIP_length (g : RandStream) :
    7 ≤ (generateRandomIP g).1.length ∧ (generateRandomIP g).1.length ≤ 15 := by
  unfold generateRandomIP
  simp only []
  split
  · exact ⟨show 7 ≤ "0.0.0.0".length by decide, show "0.0.0.0".length ≤ 15 by decide⟩
  · rename_i h
    simp only [Bool.or_eq_true, decide_eq_true_eq, not_or, not_lt] at h
    exact ⟨h.1, h.2⟩

/-- An admission decision on non-empty addresses either yields a request and
leaves `blocked_requests` alone, or yields none and adds 1 to it; so after the
push, queue depth plus `blocked_requests` has grown by exactly 1. -/
theorem pushIfAny_generateRandomRequestWith_total (lb : LoadBalancer) (g : RandStream)
    (a b : String) (t : Int) (ha : a.length ≠ 0) (hb : b.length ≠ 0) :
    ((pushIfAny (lb.generateRandomRequestWith g a b t)).1.request_queue.length : Int) +
        (pushIfAny (lb.generateRandomRequestWith g a b t)).1.blocked_requests =
      (lb.request_queue.length : Int) + lb.blocked_requests + 1 := by
  cases hblk : lb.isIPBlocked a with
  | true =>
    rw [generateRandomRequestWith_blocked lb g a b t ha hb hblk]
    show (lb.request_queue.length : Int) + (lb.blocked_requests + 1) = _
    omega
  | false =>
    by_cases hc : lb.max_requests_per_ip < lb.requestCount a + 1
    · rw [generateRandomRequestWith_over lb g a b t ha hb hblk hc]
      show (lb.request_queue.length : Int) + (lb.blocked_requests + 1) = _
      omega
    · rw [generateRandomRequestWith_accept lb g a b t ha hb hblk (by omega)]
      show (((lb.request_queue ++ [_]).length : Nat) : Int) + lb.blocked_requests = _
      rw [List.length_append, List.length_singleton]
      push_cast
      omega

theorem pushIfAny_generateRandomRequest_total (lb : LoadBalancer) (g : RandStream) (t : Int) :
    ((pushIfAny (lb.generateRandomRequest g t)).1.request_queue.length : Int) +
        (pushIfAny (lb.generateRandomRequest g t)).1.blocked_requests =
      (lb.request_queue.length : Int) + lb.blocked_requests + 1 := by
  have h := pushIfAny_generateRandomRequestWith_total lb
    (generateRandomIP (generateRandomIP g).2).2
    (generateRandomIP g).1 (generateRandomIP (generateRandomIP g).2).1 t
    (by have := (generateRandomIP_length g).1; omega)
    (by have := (generateRandomIP_length (generateRandomIP g).2).1; omega)
  rw [← generateRandomRequest_eq] at h
  exact h

theorem prefill_total (n : Nat) :
    ∀ (lb : LoadBalancer) (g : RandStream),
      ((prefill n lb g).1.request_queue.length : Int) + (prefill n lb g).1.blocked_requests =
        (lb.request_queue.length : Int) + lb.blocked_requests + n := by
  induction n with
  | zero => intro lb g; simp [prefill]
  | succ n ih =>
    intro lb g
    have h1 := pushIfAny_generateRandomRequest_total lb g lb.current_time
    have h2 := ih (pushIfAny (lb.generateRandomRequest g lb.current_time)).1
      (pushIfAny (lb.generateRandomRequest g lb.current_time)).2
    show ((prefill n (pushIfAny (lb.generateRandomRequest g lb.current_time)).1
        (pushIfAny (lb.generateRandomRequest g lb.current_time)).2).1.request_queue.length : Int) +
      (prefill n (pushIfAny (lb.generateRandomRequest g lb.current_time)).1
        (pushIfAny (lb.generateRandomRequest g lb.current_time)).2).1.blocked_requests = _
    rw [h2, h1]
    push_cast
    omega

end LoadBalancer

/-- C19. Pre-fill conservation: for every non-negative `initialServers` and every
sequence of random draws, when the constructor finishes, queue depth plus
`blocked_requests` equals `initialServers * 100`; the starting backlog is
`initialServers * 100` minus the number of rejected pre-fill candidates. -/
theorem prefill_conservation (g : RandStream) (i m : Int) (h0 : 0 ≤ i) :
    ((LoadBalancer.new g i m).1.request_queue.length : Int) +
        (LoadBalancer.new g i m).1.blocked_requests = i * 100 ∧
    (LoadBalancer.new g i m).1.getQueueSize =
      i * 100 - (LoadBalancer.new g i m).1.getBlockedRequests := by
  have h := LoadBalancer.prefill_total ((LoadBalancer.init i m).min_servers * 100).toNat
    (LoadBalancer.init i m) g
  have e : (((LoadBalancer.init i m).min_servers * 100).toNat : Int) = i * 100 := by
    show ((i * 100).toNat : Int) = i * 100
    exact Int.toNat_of_nonneg (by omega)
  have hq : ((LoadBalancer.init i m).request_queue.length : Int) +
      (LoadBalancer.init i m).blocked_requests = 0 := rfl
  rw [e, hq] at h
  have h' : ((LoadBalancer.new g i m).1.request_queue.length : Int) +
      (LoadBalancer.new g i m).1.blocked_requests = i * 100 := by
    rw [← zero_add (i * 100)]; exact h
  refine ⟨h', ?_⟩
  show ((LoadBalancer.new g i m).1.request_queue.length : Int) =
    i * 100 - (LoadBalancer.new g i m).1.blocked_requests
  omega

/-- Witness for C19: the load balancer constructed with one server and all draws
0. -/
theorem prefill_conservation_witness :
    ((LoadBalancer.new zeroStream 1 2).1.request_queue.length : Int) +
        (LoadBalancer.new zeroStream 1 2).1.blocked_requests = 1 * 100 ∧
    (LoadBalancer.new zeroStream 1 2).1.getQueueSize =
      1 * 100 - (LoadBalancer.new zeroStream 1 2).1.getBlockedRequests :=
  prefill_conservation zeroStream 1 2 (by decide)

namespace LoadBalancer

theorem generateRandomIP_ten (p : Nat) :
    generateRandomIP { draws := fun _ => 10, pos := p } =
      ("10.10.10.10", { draws := fun _ => 10, pos := p + 4 }) := by
  have hip : toString (10 % 256) ++ "." ++ toString (10 % 256) ++ "." ++
      toString (10 % 256) ++ "." ++ toString (10 % 256) = "10.10.10.10" := by decide
  unfold generateRandomIP rand
  simp only []
  rw [hip, if_neg (by decide)]

theorem new_eq (g : RandStream) (i m : Int) :
    LoadBalancer.new g i m = prefill (i * 100).toNat (init i m) g := rfl

theorem isIPBlocked_ten (lb : LoadBalancer) : lb.isIPBlocked "10.10.10.10" = true := by
  rw [isIPBlocked_long lb "10.10.10.10" (by decide)]
  have : beginsWithStaticRange "10.10.10.10" = true := by decide
  simp [this]

/-- With every draw equal to 10 the candidate is `10.10.10.10 -> 10.10.10.10`
and is rejected by the static range rule. -/
theorem generateRandomRequest_ten (lb : LoadBalancer) (p : Nat) (t : Int) :
    lb.generateRandomRequest { draws := fun _ => 10, pos := p } t =
      (none, { lb with blocked_requests := lb.blocked_requests + 1 },
       { draws := fun _ => 10, pos := p + 4 + 4 }) := by
  rw [generateRandomRequest_eq, generateRandomIP_ten p]
  simp only []
  rw [generateRandomIP_ten (p + 4)]
  simp only []
  exact generateRandomRequestWith_blocked lb _ "10.10.10.10" "10.10.10.10" t
    (by decide) (by decide) (isIPBlocked_ten lb)

theorem prefill_ten (n : Nat) :
    ∀ (lb : LoadBalancer) (p : Nat),
      (prefill n lb { draws := fun _ => 10, pos := p }).1.request_queue = lb.request_queue ∧
      (prefill n lb { draws := fun _ => 10, pos := p }).1.blocked_requests =
        lb.blocked_requests + n := by
  induction n with
  | zero => intro lb p; exact ⟨rfl, by simp [prefill]⟩
  | succ n ih =>
    intro lb p
    have e : prefill (n + 1) lb { draws := fun _ => 10, pos := p } =
        prefill n
          (pushIfAny (lb.generateRandomRequest { draws := fun _ => 10, pos := p }
            lb.current_time)).1
          (pushIfAny (lb.generateRandomRequest { draws := fun _ => 10, pos := p }
            lb.current_time)).2 := rfl
    rw [e, generateRandomRequest_ten lb p lb.current_time]
    obtain ⟨h1, h2⟩ := ih { lb with blocked_requests := lb.blocked_requests + 1 } (p + 4 + 4)
    refine ⟨h1, ?_⟩
    have h3 : (prefill n
        (pushIfAny (none, { lb with blocked_requests := lb.blocked_requests + 1 },
          ({ draws := fun _ => 10, pos := p + 4 + 4 } : RandStream))).1
        (pushIfAny (none, { lb with blocked_requests := lb.blocked_requests + 1 },
          ({ draws := fun _ => 10, pos := p + 4 + 4 } : RandStream))).2).1.blocked_requests =
        lb.blocked_requests + 1 + n := h2
    rw [h3]
    push_cast
    omega

/-- Built while every draw is 10, the load balancer starts with an empty queue
and `initial_servers * 100` blocked requests. -/
theorem new_ten (i m : Int) (h0 : 0 ≤ i) :
    (LoadBalancer.new tenStream i m).1.request_queue = [] ∧
    (LoadBalancer.new tenStream i m).1.blocked_requests = i * 100 := by
  rw [new_eq]
  obtain ⟨h1, h2⟩ := prefill_ten (i * 100).toNat (init i m) 0
  have e : (((i * 100).toNat : Nat) : Int) = i * 100 := Int.toNat_of_nonneg (by omega)
  refine ⟨h1, ?_⟩
  show (prefill (i * 100).toNat (init i m) { draws := fun _ => 10, pos := 0 }).1.blocked_requests
    = i * 100
  rw [h2, e]
  show (0 : Int) + i * 100 = i * 100
  omega

end LoadBalancer

/-- C12, evaluated at a failing input: `LoadBalancer(1, 2)` built while every
draw of `rand()` is 10.  All 100 pre-fill candidates come from `10.10.10.10` and
are rejected, so the queue is empty when construction finishes (and
`blocked_requests` is 100), yet `getStartingQueueSize()` is 100. -/
theorem starting_queue_size_overstated :
    (LoadBalancer.new tenStream 1 2).1.request_queue = [] ∧
    (LoadBalancer.new tenStream 1 2).1.getQueueSize = 0 ∧
    (LoadBalancer.new tenStream 1 2).1.getBlockedRequests = 100 ∧
    (LoadBalancer.new tenStream 1 2).1.getStartingQueueSize = 100 := by
  obtain ⟨hq, hb⟩ := LoadBalancer.new_ten 1 2 (by decide)
  have hs := (LoadBalancer.new_spec tenStream 1 2).2.1
  refine ⟨hq, ?_, ?_, ?_⟩
  · unfold LoadBalancer.getQueueSize
    rw [hq]; rfl
  · unfold LoadBalancer.getBlockedRequests
    rw [hb]; rfl
  · unfold LoadBalancer.getStartingQueueSize
    rw [hs]; rfl

/-! ## Relations between admission states carried across a cycle -/

namespace LoadBalancer

theorem sameAdmission_pushIfAny (res : Option Request × LoadBalancer × RandStream) :
    SameAdmission res.2.1 (pushIfAny res).1 := by
  obtain ⟨r, lb1, g1⟩ := res
  cases r with
  | none => exact ⟨rfl, rfl, rfl, rfl⟩
  | some req => exact ⟨rfl, rfl, rfl, rfl⟩

/-- A relation on load balancers that only looks at the admission state, is
transitive and holds across every admission decision, holds across
`generateRandomRequest` followed by the push of its result. -/
theorem rel_generate_and_push (R : LoadBalancer → LoadBalancer → Prop)
    (hsame : ∀ lb lb1, SameAdmission lb lb1 → R lb lb1)
    (htrans : ∀ lb lb1 lb2, R lb lb1 → R lb1 lb2 → R lb lb2)
    (hgen : ∀ lb g a b t, R lb (generateRandomRequestWith lb g a b t).2.1)
    (lb : LoadBalancer) (g : RandStream) (t : Int) :
    R lb (pushIfAny (lb.generateRandomRequest g t)).1 := by
  have h := hgen lb (generateRandomIP (generateRandomIP g).2).2
    (generateRandomIP g).1 (generateRandomIP (generateRandomIP g).2).1 t
  rw [← generateRandomRequest_eq] at h
  exact htrans _ _ _ h (hsame _ _ (sameAdmission_pushIfAny (lb.generateRandomRequest g t)))

theorem rel_prefill (R : LoadBalancer → LoadBalancer → Prop)
    (hsame : ∀ lb lb1, SameAdmission lb lb1 → R lb lb1)
    (htrans : ∀ lb lb1 lb2, R lb lb1 → R lb1 lb2 → R lb lb2)
    (hgen : ∀ lb g a b t, R lb (generateRandomRequestWith lb g a b t).2.1)
    (n : Nat) : ∀ (lb : LoadBalancer) (g : RandStream), R lb (prefill n lb g).1 := by
  induction n with
  | zero => intro lb g; exact hsame _ _ ⟨rfl, rfl, rfl, rfl⟩
  | succ n ih =>
    intro lb g
    have h1 := rel_generate_and_push R hsame htrans hgen lb g lb.current_time
    have h2 := ih (pushIfAny (lb.generateRandomRequest g lb.current_time)).1
      (pushIfAny (lb.generateRandomRequest g lb.current_time)).2
    exact htrans _ _ _ h1 h2

theorem rel_addRequest (R : LoadBalancer → LoadBalancer → Prop)
    (hsame : ∀ lb lb1, SameAdmission lb lb1 → R lb lb1)
    (htrans : ∀ lb lb1 lb2, R lb lb1 → R lb1 lb2 → R lb lb2)
    (hgen : ∀ lb g a b t, R lb (generateRandomRequestWith lb g a b t).2.1)
    (lb : LoadBalancer) (g : RandStream) : R lb (lb.addRequest g).1 := by
  unfold addRequest
  simp only []
  split
  · exact rel_generate_and_push R hsame htrans hgen lb _ _
  · exact hsame _ _ ⟨rfl, rfl, rfl, rfl⟩

theorem rel_processCycle (R : LoadBalancer → LoadBalancer → Prop)
    (hsame : ∀ lb lb1, SameAdmission lb lb1 → R lb lb1)
    (htrans : ∀ lb lb1 lb2, R lb lb1 → R lb1 lb2 → R lb lb2)
    (hgen : ∀ lb g a b t, R lb (generateRandomRequestWith lb g a b t).2.1)
    (lb lb5 : LoadBalancer) (g g5 : RandStream)
    (h : lb.processCycle g = some (lb5, g5)) : R lb lb5 := by
  obtain ⟨lb4, hb, hs⟩ := processCycle_eq_some lb lb5 g g5 h
  obtain ⟨ss, _, e4, _⟩ := beforeScale_eq_some lb lb4 g g5 hb
  obtain ⟨e5, _⟩ := scaleServers_eq_some lb4 lb5 hs
  have h1 : R lb ({ lb with current_time := lb.current_time + 1 } : LoadBalancer) :=
    hsame _ _ ⟨rfl, rfl, rfl, rfl⟩
  have h2 := rel_addRequest R hsame htrans hgen
    ({ lb with current_time := lb.current_time + 1 } : LoadBalancer) g
  have h3 : R (({ lb with current_time := lb.current_time + 1 } : LoadBalancer).addRequest g).1
      lb4 := by
    rw [e4]
    exact hsame _ _ ⟨rfl, rfl, rfl, rfl⟩
  have h4 : R lb4 lb5 := by
    rw [e5]
    exact hsame _ _ ⟨rfl, rfl, rfl, rfl⟩
  exact htrans _ _ _ (htrans _ _ _ (htrans _ _ _ h1 h2) h3) h4

theorem length_setInsert_le (s : List String) (k : String) :
    (setInsert s k).length ≤ s.length + 1 := by
  unfold setInsert
  split
  · omega
  · simp

theorem blockedSlack_generateRandomRequestWith (lb : LoadBalancer) (g : RandStream)
    (a b : String) (t : Int) :
    BlockedSlack lb (lb.generateRandomRequestWith g a b t).2.1 := by
  unfold BlockedSlack
  by_cases he : a.length = 0 ∨ b.length = 0
  · rw [generateRandomRequestWith_empty lb g a b t he]
  · have ha : a.length ≠ 0 := fun h => he (Or.inl h)
    have hb : b.length ≠ 0 := fun h => he (Or.inr h)
    cases hblk : lb.isIPBlocked a with
    | true =>
      rw [generateRandomRequestWith_blocked lb g a b t ha hb hblk]
      show (lb.blocked_ips.length : Int) - (lb.blocked_requests + 1) ≤ _
      omega
    | false =>
      by_cases hc : lb.max_requests_per_ip < lb.requestCount a + 1
      · rw [generateRandomRequestWith_over lb g a b t ha hb hblk hc]
        show ((setInsert lb.blocked_ips a).length : Int) - (lb.blocked_requests + 1) ≤ _
        have := length_setInsert_le lb.blocked_ips a
        omega
      · rw [generateRandomRequestWith_accept lb g a b t ha hb hblk (by omega)]

theorem blockedSlack_of_same (lb lb1 : LoadBalancer) (h : SameAdmission lb lb1) :
    BlockedSlack lb lb1 := by
  obtain ⟨_, hb, _, hr⟩ := h
  unfold BlockedSlack
  rw [hb, hr]

theorem blockedSlack_trans (lb lb1 lb2 : LoadBalancer) (h1 : BlockedSlack lb lb1)
    (h2 : BlockedSlack lb1 lb2) : BlockedSlack lb lb2 := by
  unfold BlockedSlack at *
  omega

/-- In every reachable state the blocked set has at most `blocked_requests`
entries. -/
theorem reachable_blocked_count (i m : Int) (lb : LoadBalancer) (hr : ReachableFrom i m lb) :
    (lb.blocked_ips.length : Int) ≤ lb.blocked_requests := by
  induction hr with
  | ctor g =>
    have h := rel_prefill BlockedSlack blockedSlack_of_same blockedSlack_trans
      blockedSlack_generateRandomRequestWith (i * 100).toNat (init i m) g
    rw [← new_eq] at h
    unfold BlockedSlack at h
    have e : ((init i m).blocked_ips.length : Int) - (init i m).blocked_requests = 0 := rfl
    rw [e] at h
    omega
  | cycle lb lb2 g g2 _ hstep ih =>
    have h := rel_processCycle BlockedSlack blockedSlack_of_same blockedSlack_trans
      blockedSlack_generateRandomRequestWith lb lb2 g g2 hstep
    unfold BlockedSlack at h
    omega

end LoadBalancer

/-- C20. Blocked set is justified by counts: in every state reachable from the
constructor by `processCycle` calls, every address in `blocked_ips` has a
recorded count in `ip_request_count` strictly greater than
`max_requests_per_ip`, and the number of blocked addresses
(`getBlockedIPCount`) is at most `blocked_requests`. -/
theorem blocked_set_justified_by_counts (i m : Int) (lb : LoadBalancer)
    (hr : LoadBalancer.ReachableFrom i m lb) :
    (∀ a ∈ lb.blocked_ips,
      ∃ c, mapFind lb.ip_request_count a = some c ∧ lb.max_requests_per_ip < c) ∧
    lb.getBlockedIPCount ≤ lb.getBlockedRequests :=
  ⟨(LoadBalancer.reachable_invariants i m lb hr).2.2.2.1,
   LoadBalancer.reachable_blocked_count i m lb hr⟩

/-- Witness for C20: the load balancer constructed with one server, at most two,
all draws 0. -/
theorem blocked_set_justified_by_counts_witness :
    (∀ a ∈ (LoadBalancer.new zeroStream 1 2).1.blocked_ips,
      ∃ c, mapFind (LoadBalancer.new zeroStream 1 2).1.ip_request_count a = some c ∧
        (LoadBalancer.new zeroStream 1 2).1.max_requests_per_ip < c) ∧
    (LoadBalancer.new zeroStream 1 2).1.getBlockedIPCount ≤
      (LoadBalancer.new zeroStream 1 2).1.getBlockedRequests :=
  blocked_set_justified_by_counts 1 2 (LoadBalancer.new zeroStream 1 2).1
    (LoadBalancer.ReachableFrom.ctor zeroStream)

namespace LoadBalancer

theorem admissionGrows_generateRandomRequest (lb : LoadBalancer) (g : RandStream) (t : Int) :
    AdmissionGrows lb (lb.generateRandomRequest g t).2.1 := by
  have h := admissionGrows_generateRandomRequestWith lb
    (generateRandomIP (generateRandomIP g).2).2
    (generateRandomIP g).1 (generateRandomIP (generateRandomIP g).2).1 t
  rw [← generateRandomRequest_eq] at h
  exact h

end LoadBalancer

/-- C16. Admission state only grows: across every `generateRandomRequest` call
and across every `processCycle` call, every address recorded in
`ip_request_count` is still recorded with a count that is not smaller,
`blocked_ips` afterwards contains `blocked_ips` before, and `blocked_requests`
is not smaller.  (A `processCycle` call from a state reachable from a
constructor call with `initial_servers >= 0` always returns.) -/
theorem admission_state_only_grows (lb : LoadBalancer) (g : RandStream) :
    (∀ t : Int,
      (∀ a c, mapFind lb.ip_request_count a = some c →
        ∃ c1, mapFind (lb.generateRandomRequest g t).2.1.ip_request_count a = some c1 ∧ c ≤ c1) ∧
      (∀ a, a ∈ lb.blocked_ips → a ∈ (lb.generateRandomRequest g t).2.1.blocked_ips) ∧
      lb.blocked_requests ≤ (lb.generateRandomRequest g t).2.1.blocked_requests) ∧
    (∀ (lb2 : LoadBalancer) (g2 : RandStream), lb.processCycle g = some (lb2, g2) →
      (∀ a c, mapFind lb.ip_request_count a = some c →
        ∃ c1, mapFind lb2.ip_request_count a = some c1 ∧ c ≤ c1) ∧
      (∀ a, a ∈ lb.blocked_ips → a ∈ lb2.blocked_ips) ∧
      lb.blocked_requests ≤ lb2.blocked_requests) ∧
    (∀ i m : Int, 0 ≤ i → LoadBalancer.ReachableFrom i m lb →
      ∃ lb2 g2, lb.processCycle g = some (lb2, g2)) := by
  refine ⟨?_, ?_, ?_⟩
  · intro t
    obtain ⟨_, hb, hc, hr, _⟩ := LoadBalancer.admissionGrows_generateRandomRequest lb g t
    exact ⟨hc, hb, hr⟩
  · intro lb2 g2 h
    obtain ⟨_, hb, hc, hr, _⟩ := LoadBalancer.processCycle_admission lb lb2 g g2 h
    exact ⟨hc, hb, hr⟩
  · intro i m h0 hr
    obtain ⟨hc, hmin, _⟩ := LoadBalancer.reachable_invariants i m lb hr
    obtain ⟨lb5, g5, hs, _⟩ := LoadBalancer.processCycle_defined lb g (by rw [hmin]; exact h0) hc
    exact ⟨lb5, g5, hs⟩

/-- Witness for C16: the first cycle of `LoadBalancer(0, 1)` with all draws 0,
which admits one request from `0.0.0.0`. -/
theorem admission_state_only_grows_witness :
    (∀ a c, mapFind (LoadBalancer.new zeroStream 0 1).1.ip_request_count a = some c →
      ∃ c1, mapFind LoadBalancer.afterFirstCycle.ip_request_count a = some c1 ∧ c ≤ c1) ∧
    (∀ a, a ∈ (LoadBalancer.new zeroStream 0 1).1.blocked_ips →
      a ∈ LoadBalancer.afterFirstCycle.blocked_ips) ∧
    (LoadBalancer.new zeroStream 0 1).1.blocked_requests ≤
      LoadBalancer.afterFirstCycle.blocked_requests :=
  (admission_state_only_grows (LoadBalancer.new zeroStream 0 1).1 zeroStream).2.1
    LoadBalancer.afterFirstCycle { draws := fun _ => 0, pos := 10 } rfl

/-! ## Queue depth across a cycle -/

namespace LoadBalancer

/-- The queue and the stream after a `processCycle`: the queue left by
`addRequest` minus the requests dispatched, and the stream left by
`addRequest`. -/
theorem processCycle_queue (lb lb5 : LoadBalancer) (g g5 : RandStream)
    (h : lb.processCycle g = some (lb5, g5)) :
    (∃ k, lb5.request_queue =
      (({ lb with current_time := lb.current_time + 1 } : LoadBalancer).addRequest
        g).1.request_queue.drop k) ∧
    g5 = (({ lb with current_time := lb.current_time + 1 } : LoadBalancer).addRequest g).2 := by
  obtain ⟨lb4, hb, hs⟩ := processCycle_eq_some lb lb5 g g5 h
  obtain ⟨ss, _, e4, eg⟩ := beforeScale_eq_some lb lb4 g g5 hb
  obtain ⟨e5, _⟩ := scaleServers_eq_some lb4 lb5 hs
  have hq := (assignLoop_spec
    (({ lb with current_time := lb.current_time + 1 } : LoadBalancer).addRequest g).1.current_time
    (({ lb with current_time := lb.current_time + 1 } : LoadBalancer).addRequest g).1.servers
    (({ lb with current_time := lb.current_time + 1 } : LoadBalancer).addRequest g).1.request_queue).1
  refine ⟨⟨min
    ((({ lb with current_time := lb.current_time + 1 } : LoadBalancer).addRequest g).1.servers.filter
      (fun s => !s.isBusy)).length
    (({ lb with current_time := lb.current_time + 1 } : LoadBalancer).addRequest
      g).1.request_queue.length, ?_⟩, eg⟩
  rw [e5, e4]
  exact hq

theorem addRequest_no_arrival (lb : LoadBalancer) (g : RandStream) (h : lb.NoArrival g) :
    (({ lb with current_time := lb.current_time + 1 } : LoadBalancer).addRequest
      g).1.request_queue = lb.request_queue := by
  rw [addRequest_queue]
  rcases h with h | h
  · rw [if_neg h]
    simp
  · have h2 : (({ lb with current_time := lb.current_time + 1 } : LoadBalancer).generateRandomRequest
        (rand g).2
        ({ lb with current_time := lb.current_time + 1 } : LoadBalancer).current_time).1 = none := h
    rw [h2]
    simp

theorem addRequest_failed_draw (lb : LoadBalancer) (g : RandStream)
    (h : (rand g).1 % 10 ≠ 0) : lb.addRequest g = (lb, (rand g).2) := by
  unfold addRequest
  simp only []
  rw [if_neg h]

theorem processCycles_succ_last (n : Nat) :
    ∀ (lb : LoadBalancer) (g : RandStream),
      processCycles (n + 1) lb g =
        (match processCycles n lb g with
         | none => none
         | some p => p.1.processCycle p.2) := by
  induction n with
  | zero =>
    intro lb g
    simp only [processCycles]
    cases lb.processCycle g with
    | none => rfl
    | some p => rfl
  | succ n ih =>
    intro lb g
    rw [processCycles]
    cases h : lb.processCycle g with
    | none => simp [processCycles, h]
    | some p =>
      obtain ⟨lb1, g1⟩ := p
      simp only []
      rw [ih lb1 g1]
      conv_rhs => rw [processCycles, h]

/-- While every arrival draw fails, each cycle consumes exactly one draw. -/
theorem processCycles_stream (n : Nat) :
    ∀ (lb lbn : LoadBalancer) (g gn : RandStream),
      (∀ k, g.pos ≤ k → g.draws k % 10 ≠ 0) →
      processCycles n lb g = some (lbn, gn) →
      gn.draws = g.draws ∧ gn.pos = g.pos + n := by
  induction n with
  | zero =>
    intro lb lbn g gn _ h
    simp only [processCycles, Option.some.injEq, Prod.mk.injEq] at h
    obtain ⟨_, e⟩ := h
    subst e
    exact ⟨rfl, rfl⟩
  | succ n ih =>
    intro lb lbn g gn hd h
    rw [processCycles] at h
    cases h1 : lb.processCycle g with
    | none => rw [h1] at h; exact absurd h (by simp)
    | some p =>
      obtain ⟨lb1, g1⟩ := p
      rw [h1] at h
      simp only [] at h
      have hg1 := (processCycle_queue lb lb1 g g1 h1).2
      rw [addRequest_failed_draw _ g (hd g.pos (le_refl _))] at hg1
      have hg1d : g1.draws = g.draws := by rw [hg1]; rfl
      have hg1p : g1.pos = g.pos + 1 := by rw [hg1]; rfl
      obtain ⟨e1, e2⟩ := ih lb1 lbn g1 gn
        (by intro k hk; rw [hg1d]; exact hd k (by omega)) h
      exact ⟨e1.trans hg1d, by omega⟩

/-- Runs from a reachable state of a load balancer built with a non-negative
number of servers never stop. -/
theorem processCycles_defined (i m : Int) (h0 : 0 ≤ i) (n : Nat) :
    ∀ (lb : LoadBalancer) (g : RandStream), ReachableFrom i m lb →
      ∃ lbn gn, processCycles n lb g = some (lbn, gn) ∧ ReachableFrom i m lbn := by
  induction n with
  | zero => intro lb g hr; exact ⟨lb, g, rfl, hr⟩
  | succ n ih =>
    intro lb g hr
    obtain ⟨hc, hmin, _⟩ := reachable_invariants i m lb hr
    obtain ⟨lb1, g1, hs, _⟩ := processCycle_defined lb g (by rw [hmin]; exact h0) hc
    obtain ⟨lbn, gn, hn, hrn⟩ := ih lb1 g1 (ReachableFrom.cycle lb lb1 g g1 hr hs)
    refine ⟨lbn, gn, ?_, hrn⟩
    rw [processCycles, hs]
    exact hn

end LoadBalancer

/-- C11. Queue never grows without arrivals.  A `processCycle` call in which no
new request is enqueued (the arrival draw fails or the candidate is rejected)
leaves the queue depth less than or equal to its value before the call.  Over a
run in which every arrival draw fails, the queue depth after cycle `n + 1` is at
most the depth after cycle `n`, for every `n`.  From a state reachable from a
constructor call with `initial_servers >= 0` every such call and run returns. -/
theorem queue_never_grows_without_arrivals (i m : Int) (lb : LoadBalancer)
    (hr : LoadBalancer.ReachableFrom i m lb) (g : RandStream) :
    (∀ (lb2 : LoadBalancer) (g2 : RandStream), lb.processCycle g = some (lb2, g2) →
      lb.NoArrival g → lb2.request_queue.length ≤ lb.request_queue.length) ∧
    ((∀ k, g.pos ≤ k → g.draws k % 10 ≠ 0) →
      ∀ (n : Nat) (lbn lbn1 : LoadBalancer) (gn gn1 : RandStream),
        LoadBalancer.processCycles n lb g = some (lbn, gn) →
        LoadBalancer.processCycles (n + 1) lb g = some (lbn1, gn1) →
        lbn1.request_queue.length ≤ lbn.request_queue.length) ∧
    (0 ≤ i → ∀ n : Nat, ∃ lbn gn, LoadBalancer.processCycles n lb g = some (lbn, gn)) := by
  have hstep : ∀ (lb1 lb2 : LoadBalancer) (g1 g2 : RandStream),
      lb1.processCycle g1 = some (lb2, g2) → lb1.NoArrival g1 →
      lb2.request_queue.length ≤ lb1.request_queue.length := by
    intro lb1 lb2 g1 g2 h hna
    obtain ⟨⟨k, hk⟩, _⟩ := LoadBalancer.processCycle_queue lb1 lb2 g1 g2 h
    rw [hk, LoadBalancer.addRequest_no_arrival lb1 g1 hna, List.length_drop]
    omega
  refine ⟨fun lb2 g2 => hstep lb lb2 g g2, ?_, ?_⟩
  · intro hd n lbn lbn1 gn gn1 hn hn1
    rw [LoadBalancer.processCycles_succ_last, hn] at hn1
    simp only [] at hn1
    obtain ⟨ed, ep⟩ := LoadBalancer.processCycles_stream n lb lbn g gn hd hn
    refine hstep lbn lbn1 gn gn1 hn1 (Or.inl ?_)
    show gn.draws gn.pos % 10 ≠ 0
    rw [ed, ep]
    exact hd _ (by omega)
  · intro h0 n
    obtain ⟨lbn, gn, hn, _⟩ := LoadBalancer.processCycles_defined i m h0 n lb g hr
    exact ⟨lbn, gn, hn⟩

/-- Witness for C11: `LoadBalancer(1, 2)`, then 100 cycles in which every draw is
1 (no arrival): the run returns after 99 and after 100 cycles and the queue after
the 100th cycle is no deeper than after the 99th. -/
theorem queue_never_grows_without_arrivals_witness :
    ∃ (lbn lbn1 : LoadBalancer) (gn gn1 : RandStream),
      LoadBalancer.processCycles 99 (LoadBalancer.new zeroStream 1 2).1 oneStream
        = some (lbn, gn) ∧
      LoadBalancer.processCycles (99 + 1) (LoadBalancer.new zeroStream 1 2).1 oneStream
        = some (lbn1, gn1) ∧
      lbn1.request_queue.length ≤ lbn.request_queue.length := by
  have h := queue_never_grows_without_arrivals 1 2 (LoadBalancer.new zeroStream 1 2).1
    (LoadBalancer.ReachableFrom.ctor zeroStream) oneStream
  obtain ⟨lbn, gn, hn⟩ := h.2.2 (by decide) 99
  obtain ⟨lbn1, gn1, hn1⟩ := h.2.2 (by decide) (99 + 1)
  exact ⟨lbn, lbn1, gn, gn1, hn, hn1,
    h.2.1 (by intro k _; show 1 % 10 ≠ 0; decide) 99 lbn lbn1 gn gn1 hn hn1⟩

/-! ## Servers with a non-positive duration, and retrieval -/

namespace WebServer

theorem processCycles_fixed (s : WebServer) (h : s.processCycle = some s) (n : Nat) :
    processCycles n s = some s := by
  induction n with
  | zero => rfl
  | succ n ih =>
    rw [processCycles, h]
    exact ih

end WebServer

/-- C22. A non-positive duration wedges a server: for every idle server and every
request whose `process_time` is `<= 0`, after `assignRequest` the server is busy,
and after any number `n` of `processCycle` calls it is in the very same state:
still busy, with the same `time_remaining` (the request's `process_time`), still
holding the request with `processed` untouched, and `isRequestDone()` false. -/
theorem non_positive_duration_wedges_server (s : WebServer) (req : Request) (t : Int)
    (hidle : s.isBusy = false) (hdur : req.process_time ≤ 0) :
    (s.assignRequest req t).1.isBusy = true ∧
    (s.assignRequest req t).1.time_remaining = req.process_time ∧
    (∀ n : Nat,
      (s.assignRequest req t).1.processCycles n = some (s.assignRequest req t).1 ∧
      ∃ sn, (s.assignRequest req t).1.processCycles n = some sn ∧
        sn.isBusy = true ∧ sn.time_remaining = req.process_time ∧
        sn.current_request = some { req with assigned_time := t } ∧
        sn.isRequestDone = false) := by
  have hb : s.busy = false := hidle
  rw [WebServer.assignRequest_idle s req t hb]
  refine ⟨rfl, rfl, ?_⟩
  intro n
  have hfix := WebServer.processCycles_fixed
    { busy := true, time_remaining := req.process_time,
      current_request := some { req with assigned_time := t } }
    (WebServer.processCycle_skip _ (by
      intro h
      have := h.2
      simp only [] at this
      omega)) n
  exact ⟨hfix, _, hfix, rfl, rfl, rfl, rfl⟩

/-- Witness for C22: a request of duration 0 assigned at tick 7 to a fresh server,
then 5 cycles. -/
theorem non_positive_duration_wedges_server_witness :
    (WebServer.new.assignRequest (Request.new "8.8.8.8" "1.1.1.1" 0 0) 7).1.processCycles 5 =
      some ⟨true, 0, some ⟨"8.8.8.8", "1.1.1.1", 0, 0, 7, false⟩⟩ :=
  ((non_positive_duration_wedges_server WebServer.new (Request.new "8.8.8.8" "1.1.1.1" 0 0) 7
    rfl (by decide)).2.2 5).1

/-- C23. Retrieved requests are handed back unmarked: for every server holding a
request `r`, `finishRequest()` returns `r` with `processed == false` (its other
fields untouched), also when `isRequestDone()` was true immediately before the
call; a second `finishRequest()` right after returns no request. -/
theorem retrieved_request_is_unmarked (s : WebServer) (r : Request)
    (hr : s.current_request = some r) :
    s.finishRequest.1 = some { r with processed := false } ∧
    (∀ x, s.finishRequest.1 = some x → x.processed = false) ∧
    (s.isRequestDone = true → ∃ x, s.finishRequest.1 = some x ∧ x.processed = false) ∧
    s.finishRequest.2.finishRequest.1 = none := by
  have e : s.finishRequest.1 = some { r with processed := false } := by
    simp [WebServer.finishRequest, hr]
  refine ⟨e, ?_, ?_, rfl⟩
  · intro x hx
    rw [e] at hx
    rw [← Option.some.inj hx]
  · intro _
    exact ⟨_, e, rfl⟩

/-- Witness for C23: a server that has just completed its request (so
`isRequestDone()` is true). -/
theorem retrieved_request_is_unmarked_witness :
    (⟨false, 0, some ⟨"8.8.8.8", "1.1.1.1", 1, 0, 7, true⟩⟩ : WebServer).isRequestDone = true ∧
    (⟨false, 0, some ⟨"8.8.8.8", "1.1.1.1", 1, 0, 7, true⟩⟩ : WebServer).finishRequest.1 =
      some ⟨"8.8.8.8", "1.1.1.1", 1, 0, 7, false⟩ ∧
    (⟨false, 0, some ⟨"8.8.8.8", "1.1.1.1", 1, 0, 7, true⟩⟩ :
      WebServer).finishRequest.2.finishRequest.1 = none :=
  ⟨by decide,
   (retrieved_request_is_unmarked ⟨false, 0, some ⟨"8.8.8.8", "1.1.1.1", 1, 0, 7, true⟩⟩
      ⟨"8.8.8.8", "1.1.1.1", 1, 0, 7, true⟩ rfl).1,
   (retrieved_request_is_unmarked ⟨false, 0, some ⟨"8.8.8.8", "1.1.1.1", 1, 0, 7, true⟩⟩
      ⟨"8.8.8.8", "1.1.1.1", 1, 0, 7, true⟩ rfl).2.2.2⟩

/-! ## One server followed through the cycles of the load balancer -/

namespace LoadBalancer

end LoadBalancer

namespace LoadBalancer

end LoadBalancer

namespace LoadBalancer

end LoadBalancer

/-- C3. Static-range rejection: for every source address that begins with the
prefix `10.`, `127.` or `192.168.`, in every state, the admission check rejects
the candidate (no request is returned), and it leaves the per-address count map
`ip_request_count` and the blocked set `blocked_ips` exactly as they were. The
source address of a candidate is the one `generateRandomIP` returns, in every
load balancer `lb`, for every random stream `g` and arrival tick `t`; the only
change to the load balancer is `blocked_requests + 1`. -/
theorem static_range_rejection (lb : LoadBalancer) (g : RandStream) (t : Int)
    (hs : beginsWithStaticRange (LoadBalancer.generateRandomIP g).1 = true) :
    lb.isIPBlocked (LoadBalancer.generateRandomIP g).1 = true ∧
    (lb.generateRandomRequest g t).1 = none ∧
    (lb.generateRandomRequest g t).2.1.ip_request_count = lb.ip_request_count ∧
    (lb.generateRandomRequest g t).2.1.blocked_ips = lb.blocked_ips ∧
    (lb.generateRandomRequest g t).2.1 =
      { lb with blocked_requests := lb.blocked_requests + 1 } := by
  have hlen := (LoadBalancer.generateRandomIP_length g).1
  have hlen2 := (LoadBalancer.generateRandomIP_length (LoadBalancer.generateRandomIP g).2).1
  have hb : (LoadBalancer.generateRandomIP (LoadBalancer.generateRandomIP g).2).1 ≠ "" := by
    intro h
    rw [h] at hlen2
    exact absurd hlen2 (by decide)
  have hblk : lb.isIPBlocked (LoadBalancer.generateRandomIP g).1 = true := by
    rw [LoadBalancer.isIPBlocked_long lb _ hlen, hs]
    simp
  have h := LoadBalancer.generateRandomRequestWith_static_range lb
    (LoadBalancer.generateRandomIP (LoadBalancer.generateRandomIP g).2).2
    (LoadBalancer.generateRandomIP g).1
    (LoadBalancer.generateRandomIP (LoadBalancer.generateRandomIP g).2).1 t hlen hs
  rw [← LoadBalancer.generateRandomRequest_eq lb g t] at h
  exact ⟨hblk, h.1, h.2.1, h.2.2.1, h.2.2.2 hb⟩

/-- Witness for C3: the stream whose first generated address is `192.168.1.5`,
on a fresh load balancer. -/
theorem static_range_rejection_witness :
    (LoadBalancer.generateRandomIP privateStream).1 = "192.168.1.5" ∧
    beginsWithStaticRange (LoadBalancer.generateRandomIP privateStream).1 = true ∧
    (LoadBalancer.fresh.isIPBlocked (LoadBalancer.generateRandomIP privateStream).1 = true ∧
     (LoadBalancer.fresh.generateRandomRequest privateStream 0).1 = none ∧
     (LoadBalancer.fresh.generateRandomRequest privateStream 0).2.1.ip_request_count =
       LoadBalancer.fresh.ip_request_count ∧
     (LoadBalancer.fresh.generateRandomRequest privateStream 0).2.1.blocked_ips =
       LoadBalancer.fresh.blocked_ips ∧
     (LoadBalancer.fresh.generateRandomRequest privateStream 0).2.1 =
       { LoadBalancer.fresh with blocked_requests := LoadBalancer.fresh.blocked_requests + 1 }) :=
  ⟨by decide, by decide,
   static_range_rejection LoadBalancer.fresh privateStream 0 (by decide)⟩

end DoSBlocker
